import Mathlib

/-!
Verification development for the monthly financial aggregation and advisory
engine of a personal finance tracker (Express + Prisma backend).

The embedding below translates the relevant route handlers into pure Lean
functions over an explicit database value:

* `monthOverview`       — backend/src/routes/months.ts, GET /:ym/overview
* `financialAdvice`     — backend/src/routes/advice.ts, GET /financial
* `payBill`             — routes/bills.ts, PATCH /:id/pay (the prisma.$transaction version)
* `generateBillsForMonth` — routes/bills.ts, POST /generate
* `createTransaction`   — backend/src/routes/transactions.ts, POST /
* `deleteTransaction`   — backend/src/routes/transactions.ts, DELETE /:id

Monetary amounts are modelled as exact rationals (`ℚ`), matching the spec's
decimal-arithmetic semantics; the separate `float64` definitions model the
source's actual IEEE-754 binary64 evaluation where the distinction is the
point of a claim.

Timestamps are modelled as seconds in the proleptic Gregorian calendar
(an order-isomorphic, affine image of JavaScript epoch milliseconds for the
dates handled by the program; no `Date` construction in the source rolls
over month or day boundaries).
-/

namespace FinApp

/-- Category kinds, from the Prisma `CategoryKind` enum. -/
inductive CategoryKind where
  | EXPENSE_FIXED
  | EXPENSE_VARIABLE
  | INCOME
deriving DecidableEq, Repr

/-- Transaction types, from the Prisma `TransactionType` enum. -/
inductive TransactionType where
  | INCOME
  | EXPENSE
deriving DecidableEq, Repr

/-- Bill recurrence values, from the Prisma `BillRecurrence` enum. -/
inductive BillRecurrence where
  | NONE
  | MONTHLY
  | WEEKLY
deriving DecidableEq, Repr

/-- A category row. -/
structure Category where
  id : Nat
  userId : Nat
  name : String
  kind : CategoryKind
deriving DecidableEq, Repr

/-- A transaction row. `date` is a timestamp (see `dateSec`). -/
structure Transaction where
  id : Nat
  userId : Nat
  amount : ℚ
  type : TransactionType
  description : Option String
  categoryId : Option Nat
  date : Int
deriving DecidableEq, Repr

/-- A bill row. -/
structure Bill where
  id : Nat
  userId : Nat
  description : String
  amount : ℚ
  dueDate : Int
  categoryId : Option Nat
  recurrence : BillRecurrence
  reminderDays : Nat
  paid : Bool
  paidAt : Option Int
  paidTransactionId : Option Nat
  billTemplateId : Option Nat
deriving DecidableEq, Repr

/-- A bill template row. -/
structure BillTemplate where
  id : Nat
  userId : Nat
  description : String
  amount : ℚ
  categoryId : Option Nat
  dueDay : Nat
  recurrence : BillRecurrence
  active : Bool
  reminderDays : Nat
deriving DecidableEq, Repr

/-- The persistent store: one list per table, plus a fresh-id counter
modelling the store's id generation for created rows. -/
structure DB where
  transactions : List Transaction
  bills : List Bill
  categories : List Category
  billTemplates : List BillTemplate
  nextId : Nat
deriving DecidableEq, Repr

/-! ### Calendar arithmetic

The routes build period bounds with
`new Date(year, month - 1, 1, 0, 0, 0)` and `new Date(year, month, 0, 23, 59, 59)`
for `month ∈ 1..12`; the latter is the last day of the month (day 0 of the
following month).  We model timestamps as seconds since the start of the
proleptic Gregorian year 1; this is an order- and difference-faithful affine
image of the JS epoch-millisecond timeline on the dates the program builds. -/

/-- Gregorian leap-year test (as used by `Date` month lengths). -/
def isLeap (y : Int) : Bool :=
  (y % 4 == 0 && y % 100 != 0) || y % 400 == 0

/-- Number of days of month `m` (1-based) of year `y`; the value
`new Date(year, month, 0).getDate()` computes in the generate route. -/
def daysInMonth (y : Int) (m : Nat) : Nat :=
  if m = 2 then (if isLeap y then 29 else 28)
  else if m = 4 ∨ m = 6 ∨ m = 9 ∨ m = 11 then 30
  else 31

/-- Days in months strictly before month `m` of year `y`. -/
def daysBeforeMonth (y : Int) : Nat → Nat
  | 0 => 0
  | 1 => 0
  | n + 1 => daysBeforeMonth y n + daysInMonth y n

/-- Days in years strictly before year `y` (proleptic Gregorian). -/
def daysBeforeYear (y : Int) : Int :=
  365 * (y - 1) + (y - 1) / 4 - (y - 1) / 100 + (y - 1) / 400

/-- Timestamp (in seconds) of `new Date(y, m - 1, d, h, mi, s)` for a
1-based month `m ∈ 1..12` and day `d ≥ 1` that needs no rollover. -/
def dateSec (y : Int) (m d h mi s : Nat) : Int :=
  (daysBeforeYear y + (daysBeforeMonth y m : Int) + ((d - 1 : Nat) : Int)) * 86400
    + ((h * 3600 + mi * 60 + s : Nat) : Int)

/-! ### Transaction aggregation (months.ts / advice.ts shared queries)

Both routes issue the same four queries: an income sum, an expense sum, a
group-by over `(categoryId, type)` restricted to `categoryId ≠ null`, and a
bill query, then resolve the grouped category ids with
`prisma.category.findMany({ where: { id: { in: categoryIds } } })` — note that
this category lookup is **not** scoped by `userId`.

The aggregates exist at two levels.  The store computes the sums
(`_sum.amount` of the aggregate and group-by queries) in exact decimal
arithmetic — those store-side decimal values are embedded below as exact
rationals, as filtered sums: summing the per-group decimal sums that the
loop routes into each bucket equals summing the individual transaction
amounts that satisfy the bucket's predicate, because decimal addition is
commutative and associative.  `classKind` is the kind the loop's
`catMap.get(g.categoryId)` resolves (`none` both for a null `categoryId`
and for a dangling id, matching `if (!g.categoryId) continue` and
`if (!item) continue`).

The route then pulls each store-side sum through `Number(...)` and
accumulates the buckets with JavaScript `+`, i.e. in IEEE-754 binary64.
That second, lossy level is embedded separately by `totalExpenseFloat64`
and `bucketFloat64` further below, and is what the additivity correction
is about. -/

/-- Scope predicate of `wherePeriod`: owner and inclusive date bounds. -/
def txInScope (uid : Nat) (ps pe : Int) (t : Transaction) : Prop :=
  t.userId = uid ∧ ps ≤ t.date ∧ t.date ≤ pe

instance (uid : Nat) (ps pe : Int) (t : Transaction) :
    Decidable (txInScope uid ps pe t) := by
  unfold txInScope
  infer_instance

/-- Sum of the amounts of a list of transactions. -/
def sumAmounts (l : List Transaction) : ℚ :=
  (l.map (·.amount)).sum

/-- Category resolution as done through `catMap`: look the id up among all
categories of the store, with no owner scoping. -/
def findCategory (db : DB) (cid : Nat) : Option Category :=
  db.categories.find? (fun c => c.id == cid)

/-- The category kind a transaction's bucket classification resolves to. -/
def classKind (db : DB) (t : Transaction) : Option CategoryKind :=
  match t.categoryId with
  | none => none
  | some cid => (findCategory db cid).map (·.kind)

/-- `totalIncome`: sum of INCOME transactions of the owner in the period. -/
def totalIncome (db : DB) (uid : Nat) (ps pe : Int) : ℚ :=
  sumAmounts (db.transactions.filter
    (fun t => decide (txInScope uid ps pe t ∧ t.type = TransactionType.INCOME)))

/-- `totalExpense` as the store computes it: the exact decimal sum of the
owner's EXPENSE transactions in the period (`expensesAgg._sum.amount`).
The route's `Number(...)` view of it is `totalExpenseFloat64`. -/
def totalExpense (db : DB) (uid : Nat) (ps pe : Int) : ℚ :=
  sumAmounts (db.transactions.filter
    (fun t => decide (txInScope uid ps pe t ∧ t.type = TransactionType.EXPENSE)))

/-- `fixedExpenses` at the store's decimal level: the amounts the loop
routes into the fixed bucket — EXPENSE groups whose resolved category kind
is `EXPENSE_FIXED`.  The route's binary64 accumulation of the same bucket
is `fixedExpensesFloat64`. -/
def fixedExpenses (db : DB) (uid : Nat) (ps pe : Int) : ℚ :=
  sumAmounts (db.transactions.filter
    (fun t => decide (txInScope uid ps pe t ∧ t.type = TransactionType.EXPENSE ∧
      classKind db t = some CategoryKind.EXPENSE_FIXED)))

/-- `variableExpenses` at the store's decimal level: the amounts the loop
routes into the variable bucket — EXPENSE groups whose resolved category
kind is `EXPENSE_VARIABLE`.  The route's binary64 accumulation of the same
bucket is `variableExpensesFloat64`. -/
def variableExpenses (db : DB) (uid : Nat) (ps pe : Int) : ℚ :=
  sumAmounts (db.transactions.filter
    (fun t => decide (txInScope uid ps pe t ∧ t.type = TransactionType.EXPENSE ∧
      classKind db t = some CategoryKind.EXPENSE_VARIABLE)))

/-- Per-category expense accumulated by the loop into `catMap` (used by the
advice route's top-category rule). -/
def categoryExpense (db : DB) (uid : Nat) (ps pe : Int) (cid : Nat) : ℚ :=
  sumAmounts (db.transactions.filter
    (fun t => decide (txInScope uid ps pe t ∧ t.type = TransactionType.EXPENSE ∧
      t.categoryId = some cid)))

/-- Sum of the amounts of a list of bills (the `reduce` rollups). -/
def sumBillAmounts (l : List Bill) : ℚ :=
  (l.map (·.amount)).sum

/-! ### Month overview (months.ts, GET /:ym/overview) -/

/-- The `totals` block of the overview response. -/
structure Totals where
  income : ℚ
  expense : ℚ
  balance : ℚ
  fixedExpenses : ℚ
  variableExpenses : ℚ
  savingsRate : ℚ
  fixedPct : ℚ
  variablePct : ℚ
  cashAvailableAfterOpenBills : ℚ
deriving DecidableEq, Repr

/-- A bill item of the overview's `bills.items` projection. -/
structure BillItem where
  id : Nat
  description : String
  amount : ℚ
  dueDate : Int
  paid : Bool
  paidAt : Option Int
deriving DecidableEq, Repr

/-- The `bills` block of the overview response. -/
structure BillsBlock where
  totalDue : ℚ
  totalPaid : ℚ
  totalOpen : ℚ
  items : List BillItem
deriving DecidableEq, Repr

/-- The overview response. -/
structure Overview where
  periodFrom : Int
  periodTo : Int
  totals : Totals
  bills : BillsBlock
deriving DecidableEq, Repr

/-- Start of the reporting period: `new Date(year, month - 1, 1, 0, 0, 0)`. -/
def periodStart (y : Int) (m : Nat) : Int := dateSec y m 1 0 0 0

/-- End of the reporting period: `new Date(year, month, 0, 23, 59, 59)`. -/
def periodEnd (y : Int) (m : Nat) : Int := dateSec y m (daysInMonth y m) 23 59 59

/-- The overview computation of GET /:ym/overview for an already-validated
`YYYY-MM` (`m ∈ 1..12`).  The source's `orderBy: { dueDate: "asc" }` on the
bill query is not reproduced: none of the totals depends on item order. -/
def monthOverview (db : DB) (uid : Nat) (y : Int) (m : Nat) : Overview :=
  let ps := periodStart y m
  let pe := periodEnd y m
  let tI := totalIncome db uid ps pe
  let tE := totalExpense db uid ps pe
  let balance := tI - tE
  let fE := fixedExpenses db uid ps pe
  let vE := variableExpenses db uid ps pe
  let bills := db.bills.filter
    (fun b => decide (b.userId = uid ∧ ps ≤ b.dueDate ∧ b.dueDate ≤ pe))
  let totalDue := sumBillAmounts bills
  let totalPaid := sumBillAmounts (bills.filter (·.paid))
  let totalOpen := sumBillAmounts (bills.filter (fun b => !b.paid))
  let savingsRate := if 0 < tI then balance / tI else 0
  let fixedPct := if 0 < tI then fE / tI else 0
  let variablePct := if 0 < tI then vE / tI else 0
  { periodFrom := ps
    periodTo := pe
    totals :=
      { income := tI
        expense := tE
        balance := balance
        fixedExpenses := fE
        variableExpenses := vE
        savingsRate := savingsRate
        fixedPct := fixedPct
        variablePct := variablePct
        cashAvailableAfterOpenBills := balance - totalOpen }
    bills :=
      { totalDue := totalDue
        totalPaid := totalPaid
        totalOpen := totalOpen
        items := bills.map (fun b =>
          { id := b.id
            description := b.description
            amount := b.amount
            dueDate := b.dueDate
            paid := b.paid
            paidAt := b.paidAt }) } }

/-! ### Advisory rule engine (advice.ts, GET /financial) -/

/-- Advisory severities. -/
inductive Severity where
  | info
  | warning
  | alert
deriving DecidableEq, Repr

/-- One advisory entry of the `advices` array. -/
structure Advisory where
  id : String
  severity : Severity
  title : String
  message : String
deriving DecidableEq, Repr

/-- `Number.prototype.toFixed(0)` on an exact rational: the integer `n`
minimizing the distance, with ties resolved to the larger `n`
(ECMA-262 Number::toFixed; exact-rational view, see the `float64`
section for the representation rounding the claim about drift covers). -/
def toFixed0 (q : ℚ) : String :=
  toString (round q)

/-- Left-pad the cents part to two digits. -/
def pad2 (k : Nat) : String :=
  if k < 10 then "0" ++ toString k else toString k

/-- `Number.prototype.toFixed(2)` on an exact rational (same convention). -/
def toFixed2 (q : ℚ) : String :=
  let n := round (q * 100)
  let sign := if n < 0 then "-" else ""
  sign ++ toString (n.natAbs / 100) ++ "." ++ pad2 (n.natAbs % 100)

/-- Rule 1, `no-income`. -/
def noIncomeAdvisory : Advisory :=
  { id := "no-income"
    severity := Severity.info
    title := "Registre suas receitas"
    message := "Você registrou despesas neste mês, mas nenhuma receita. Registre seus recebimentos para ter uma visão real do seu saldo." }

/-- Rule 2, `high-fixed`, with the interpolated percentage. -/
def highFixedAdvisory (fixedPct : ℚ) : Advisory :=
  { id := "high-fixed"
    severity := Severity.warning
    title := "Despesas fixas altas"
    message := "Suas despesas fixas representam aproximadamente " ++ toFixed0 (fixedPct * 100) ++ "% da sua renda do mês. Tente manter este valor abaixo de 50% ao longo do tempo." }

/-- Rule 3, `high-variable`, with the interpolated percentage. -/
def highVariableAdvisory (variablePct : ℚ) : Advisory :=
  { id := "high-variable"
    severity := Severity.warning
    title := "Gastos variáveis elevados"
    message := "Seus gastos variáveis estão em torno de " ++ toFixed0 (variablePct * 100) ++ "% da sua renda. Reveja itens como lazer, transporte e mercado para equilibrar melhor." }

/-- Rule 4, `negative-balance`, with the interpolated absolute shortfall. -/
def negativeBalanceAdvisory (shortfall : ℚ) : Advisory :=
  { id := "negative-balance"
    severity := Severity.alert
    title := "Mês no vermelho"
    message := "Suas despesas superam suas receitas em aproximadamente R$ " ++ toFixed2 shortfall ++ " neste mês. Considere cortar gastos variáveis e adiar despesas não essenciais." }

/-- Rule 5, `top-category`, with the interpolated name and share. -/
def topCategoryAdvisory (name : String) (share : ℚ) : Advisory :=
  { id := "top-category"
    severity := Severity.info
    title := "Categoria de gasto mais pesada"
    message := "A categoria \"" ++ name ++ "\" concentra cerca de " ++ toFixed0 (share * 100) ++ "% de todas as suas despesas deste mês. Vale analisar se dá para reduzir um pouco nessa área." }

/-- Rule 6, `upcoming-bills`, with the interpolated summed amount. -/
def upcomingBillsAdvisory (totalUpcoming : ℚ) : Advisory :=
  { id := "upcoming-bills"
    severity := Severity.info
    title := "Contas a pagar nos próximos 7 dias"
    message := "Você tem R$ " ++ toFixed2 totalUpcoming ++ " em contas a pagar nos próximos 7 dias. Garanta que esse valor esteja reservado para não comprometer o caixa do mês." }

/-- The categories the advice loop materializes in `catMap`: every category
of the store (any owner — the lookup is by id only) whose id occurs as the
`categoryId` of some in-scope transaction. -/
def relevantCategories (db : DB) (uid : Nat) (ps pe : Int) : List Category :=
  db.categories.filter (fun c =>
    db.transactions.any (fun t =>
      decide (txInScope uid ps pe t ∧ t.categoryId = some c.id)))

/-- First maximal element by expense, the element a stable descending sort
by `(b, a) => b.expense - a.expense` places first. -/
def topExpenseCategory (h : Category × ℚ) (t : List (Category × ℚ)) : Category × ℚ :=
  t.foldl (fun best x => if best.2 < x.2 then x else best) h

/-- The unpaid bills due in the rolling week `[now, now + 7 days]`. -/
def upcomingBills (db : DB) (uid : Nat) (now : Int) : List Bill :=
  db.bills.filter (fun b =>
    decide (b.userId = uid ∧ b.paid = false ∧
      now ≤ b.dueDate ∧ b.dueDate ≤ now + 7 * 24 * 60 * 60))

/-- The advisory list of GET /financial for an explicit `YYYY-MM`
(`ym` provided; when `ym` is omitted the route substitutes the current
calendar month before running the same rule sequence).  The six rules are
evaluated in source order, each pushing zero or one advisory. -/
def financialAdvice (db : DB) (uid : Nat) (y : Int) (m : Nat) (now : Int) :
    List Advisory :=
  let ps := periodStart y m
  let pe := periodEnd y m
  let tI := totalIncome db uid ps pe
  let tE := totalExpense db uid ps pe
  let fE := fixedExpenses db uid ps pe
  let vE := variableExpenses db uid ps pe
  let balance := tI - tE
  let advices : List Advisory := []
  let advices := if tI ≤ 0 ∧ 0 < tE then advices ++ [noIncomeAdvisory] else advices
  let advices :=
    if 0 < tI then
      let fixedPct := fE / tI
      let variablePct := vE / tI
      let advices :=
        if 1 / 2 < fixedPct then advices ++ [highFixedAdvisory fixedPct] else advices
      if 3 / 10 < variablePct then advices ++ [highVariableAdvisory variablePct]
      else advices
    else advices
  let advices := if balance < 0 then advices ++ [negativeBalanceAdvisory |balance|] else advices
  let expenseCategories :=
    ((relevantCategories db uid ps pe).map
      (fun c => (c, categoryExpense db uid ps pe c.id))).filter (fun x => 0 < x.2)
  let advices :=
    match expenseCategories with
    | [] => advices
    | h :: t =>
      if 0 < tE then
        let top := topExpenseCategory h t
        let share := top.2 / tE
        if 3 / 10 < share then advices ++ [topCategoryAdvisory top.1.name share]
        else advices
      else advices
  let upcoming := upcomingBills db uid now
  if upcoming ≠ [] then advices ++ [upcomingBillsAdvisory (sumBillAmounts upcoming)]
  else advices

/-! ### Bill lifecycle (routes/bills.ts) -/

/-- The error surfaced as a 404 by PATCH /:id/pay and DELETE /:id. -/
inductive NotFoundError where
  | notFound
deriving DecidableEq, Repr

/-- The bill-row update performed by `tx.bill.update` when paying. -/
def markPaid (now : Int) (txId : Nat) (b : Bill) : Bill :=
  { b with paid := true, paidAt := some now, paidTransactionId := some txId }

/-- PATCH /:id/pay (the `prisma.$transaction` version): locate the bill
scoped to the owner, short-circuit when `paid && paidTransactionId`,
otherwise atomically create the expense transaction and update the bill.
The inner re-read inside the unit of work sees the same state in this
sequential model; it is embedded all the same, mirroring the source. -/
def payBill (db : DB) (uid : Nat) (billId : Nat) (now : Int) :
    Except NotFoundError (DB × Bill) :=
  match db.bills.find? (fun b => b.id == billId && b.userId == uid) with
  | none => Except.error NotFoundError.notFound
  | some existing =>
    if existing.paid && existing.paidTransactionId.isSome then
      Except.ok (db, existing)
    else
      match db.bills.find? (fun b => b.id == billId && b.userId == uid) with
      | none => Except.error NotFoundError.notFound
      | some bill =>
        if bill.paid && bill.paidTransactionId.isSome then
          Except.ok (db, bill)
        else
          let txn : Transaction :=
            { id := db.nextId
              userId := uid
              amount := bill.amount
              type := TransactionType.EXPENSE
              description := some bill.description
              categoryId := bill.categoryId
              date := now }
          let updated := markPaid now txn.id bill
          Except.ok
            ({ db with
                transactions := db.transactions ++ [txn]
                bills := db.bills.map (fun x =>
                  if x.id == bill.id then markPaid now txn.id x else x)
                nextId := db.nextId + 1 },
              updated)

/-- The existing-bill check of POST /generate for template `t`: a bill of
the owner generated from `t` whose due date falls inside the month. -/
def generatedBillFor (uid : Nat) (ps pe : Int) (t : BillTemplate) (b : Bill) : Prop :=
  b.userId = uid ∧ b.billTemplateId = some t.id ∧ ps ≤ b.dueDate ∧ b.dueDate ≤ pe

instance (uid : Nat) (ps pe : Int) (t : BillTemplate) (b : Bill) :
    Decidable (generatedBillFor uid ps pe t b) := by
  unfold generatedBillFor
  infer_instance

/-- The bill row `prisma.bill.create` builds for template `t` in the target
month: the template's description/amount/category/recurrence/reminderDays
and the due day `Math.min(t.dueDay, lastDay)` at midnight. -/
def genBill (uid : Nat) (y : Int) (m : Nat) (lastDay : Nat) (nid : Nat)
    (t : BillTemplate) : Bill :=
  { id := nid
    userId := uid
    description := t.description
    amount := t.amount
    dueDate := dateSec y m (min t.dueDay lastDay) 0 0 0
    categoryId := t.categoryId
    recurrence := t.recurrence
    reminderDays := t.reminderDays
    paid := false
    paidAt := none
    paidTransactionId := none
    billTemplateId := some t.id }

/-- The loop body of POST /generate: skip a template with an out-of-range
due day (`!t.dueDay || t.dueDay < 1 || t.dueDay > 31`; `dueDay = 0` is the
falsy case), skip when a generated bill already exists in the month,
otherwise create the clamped bill and add it to the list that is returned. -/
def genStep (uid : Nat) (y : Int) (m : Nat) (ps pe : Int) (lastDay : Nat)
    (acc : DB × List Bill) (t : BillTemplate) : DB × List Bill :=
  if t.dueDay < 1 ∨ 31 < t.dueDay then acc
  else
    match acc.1.bills.find? (fun b => decide (generatedBillFor uid ps pe t b)) with
    | some _ => acc
    | none =>
      let bill := genBill uid y m lastDay acc.1.nextId t
      ({ acc.1 with bills := acc.1.bills ++ [bill], nextId := acc.1.nextId + 1 },
        acc.2 ++ [bill])

/-- The active templates of the owner that POST /generate iterates. -/
def activeTemplates (db : DB) (uid : Nat) : List BillTemplate :=
  db.billTemplates.filter (fun t => t.userId == uid && t.active)

/-- POST /generate for an already-validated `YYYY-MM` (`m ∈ 1..12`):
returns the updated store and the list of newly created bills
(the route's `generated` payload). -/
def generateBillsForMonth (db : DB) (uid : Nat) (y : Int) (m : Nat) :
    DB × List Bill :=
  let ps := periodStart y m
  let lastDay := daysInMonth y m
  let pe := periodEnd y m
  (activeTemplates db uid).foldl (genStep uid y m ps pe lastDay) (db, [])

/-! ### Transaction creation and deletion (routes/transactions.ts) -/

/-- The error surfaced as a 400 by POST / on transactions
(`"Valor e tipo são obrigatórios."`). -/
inductive ValidationError where
  | validation
deriving DecidableEq, Repr

/-- POST / on transactions: `if (!amount || !type)` rejects a missing
amount, a zero amount (the only falsy rational) and a missing type with a
400; otherwise the row is stored as sent, with `new Date()` (`now`) as the
date when none is given.  No other validation of `amount` is performed. -/
def createTransaction (db : DB) (uid : Nat) (amount : Option ℚ)
    (type : Option TransactionType) (description : Option String)
    (categoryId : Option Nat) (date : Option Int) (now : Int) :
    Except ValidationError (DB × Transaction) :=
  match amount, type with
  | some a, some ty =>
    if a = 0 then Except.error ValidationError.validation
    else
      let txn : Transaction :=
        { id := db.nextId
          userId := uid
          amount := a
          type := ty
          description := description
          categoryId := categoryId
          date := date.getD now }
      Except.ok ({ db with transactions := db.transactions ++ [txn],
                           nextId := db.nextId + 1 }, txn)
  | _, _ => Except.error ValidationError.validation

/-- DELETE /:id on transactions: 404 unless a transaction with this id is
owned by the caller, then delete the row with that id. -/
def deleteTransaction (db : DB) (uid : Nat) (txId : Nat) :
    Except NotFoundError DB :=
  match db.transactions.find? (fun t => t.id == txId && t.userId == uid) with
  | none => Except.error NotFoundError.notFound
  | some _ =>
    Except.ok { db with transactions := db.transactions.filter (fun t => !(t.id == txId)) }

/-! ### IEEE-754 binary64 evaluation of the sums

The routes do not keep the store's exact decimals: every aggregate is pulled
through `Number(...)` and accumulated with JavaScript `+` on `number`
(IEEE-754 binary64).  To settle the claim about exactness, the rounding a
binary64 value imposes is modelled on exact rationals: a nonzero value in
the normal range is rounded to 53 significant bits, ties to even — the
rounding both `Number(decimal)` and each float addition apply.  Exponent
extremes (subnormals, overflow) are outside the monetary magnitudes at play
and are not modelled. -/

/-- Round a rational to an integer, ties to even. -/
def roundTiesToEven (x : ℚ) : ℤ :=
  if x - ⌊x⌋ < 1 / 2 then ⌊x⌋
  else if 1 / 2 < x - ⌊x⌋ then ⌊x⌋ + 1
  else if ⌊x⌋ % 2 = 0 then ⌊x⌋ else ⌊x⌋ + 1

/-- Bit length of a natural number, with an explicit structural fuel
argument so that the kernel can evaluate it. -/
def bitLenAux : Nat → Nat → Nat
  | 0, _ => 0
  | fuel + 1, n => if n = 0 then 0 else bitLenAux fuel (n / 2) + 1

/-- Bit length: `bitLen n` is the least `k` with `n < 2 ^ k`. -/
def bitLen (n : Nat) : Nat := bitLenAux n n

/-- Floor base-2 logarithm of a positive rational: the unique `e` with
`2 ^ e ≤ x < 2 ^ (e + 1)`.  For `x ≥ 1` this is one less than the bit
length of `⌊x⌋`; for `x < 1` it is minus the least `k` with `x⁻¹ ≤ 2 ^ k`. -/
def floorLog2Pos (x : ℚ) : ℤ :=
  if 1 ≤ x then (bitLen ⌊x⌋.toNat : ℤ) - 1
  else -(bitLen (⌈x⁻¹⌉.toNat - 1) : ℤ)

/-- Binary64 rounding of a positive rational in the normal range: scale to
a 53-bit significand by the floor base-2 logarithm, round ties-to-even,
scale back. -/
def float64RoundPos (x : ℚ) : ℚ :=
  (roundTiesToEven (x * 2 ^ (52 - floorLog2Pos x)) : ℚ) * 2 ^ (floorLog2Pos x - 52)

/-- Binary64 rounding of an exact rational (normal range; zero is exact). -/
def float64Round (x : ℚ) : ℚ :=
  if x = 0 then 0
  else if 0 < x then float64RoundPos x
  else -float64RoundPos (-x)

/-- JavaScript `+` on two binary64 values: exact sum, then rounding. -/
def jsAdd (a b : ℚ) : ℚ :=
  float64Round (a + b)

/-- The bill rollup `bills.reduce((sum, b) => sum + Number(b.amount), 0)`
as binary64 evaluation: each stored decimal is converted with `Number`
(one rounding) and accumulated with float addition (one rounding per `+`). -/
def totalDueFloat64 (amounts : List ℚ) : ℚ :=
  amounts.foldl (fun s a => jsAdd s (float64Round a)) 0

/-- The route's `totalExpense` value:
`Number(expensesAgg._sum.amount || 0)` — one binary64 conversion of the
store's exact decimal sum. -/
def totalExpenseFloat64 (db : DB) (uid : Nat) (ps pe : Int) : ℚ :=
  float64Round (totalExpense db uid ps pe)

/-- The expense groups of the route's `groupBy(["categoryId", "type"])`:
the distinct category ids of the owner's in-period EXPENSE transactions
with a non-null category, in first-occurrence order (the store does not
specify a group order; the drift correction needs only some order). -/
def expenseGroupIds (db : DB) (uid : Nat) (ps pe : Int) : List Nat :=
  ((db.transactions.filter (fun t => decide (txInScope uid ps pe t ∧
      t.type = TransactionType.EXPENSE))).filterMap
    (fun t => t.categoryId)).foldl
    (fun acc cid => if cid ∈ acc then acc else acc ++ [cid]) []

/-- The route's running float accumulation of an expense bucket
(`fixedExpenses += amount` / `variableExpenses += amount` with
`amount = Number(g._sum.amount || 0)`): each expense group's exact decimal
sum crosses `Number(...)` (one rounding) and is added with JavaScript `+`
(one rounding) when its category resolves to the given kind. -/
def bucketFloat64 (db : DB) (uid : Nat) (ps pe : Int) (k : CategoryKind) : ℚ :=
  (expenseGroupIds db uid ps pe).foldl
    (fun acc cid =>
      if (findCategory db cid).map (fun c => c.kind) = some k then
        jsAdd acc (float64Round (categoryExpense db uid ps pe cid))
      else acc) 0

/-- The route's `fixedExpenses` value, in binary64. -/
def fixedExpensesFloat64 (db : DB) (uid : Nat) (ps pe : Int) : ℚ :=
  bucketFloat64 db uid ps pe CategoryKind.EXPENSE_FIXED

/-- The route's `variableExpenses` value, in binary64. -/
def variableExpensesFloat64 (db : DB) (uid : Nat) (ps pe : Int) : ℚ :=
  bucketFloat64 db uid ps pe CategoryKind.EXPENSE_VARIABLE

/-- The additivity drift store: two fixed-kind categories of owner 1, and
one expense of 0.10 and one of 0.20 in March 2024, one per category, so
the route float-accumulates two groups into the fixed bucket. -/
def c2fDB : DB :=
  { transactions := [
      { id := 1, userId := 1, amount := 1 / 10, type := TransactionType.EXPENSE,
        description := some ("Aluguel"), categoryId := some 8,
        date := dateSec 2024 3 1 0 0 0 },
      { id := 2, userId := 1, amount := 2 / 10, type := TransactionType.EXPENSE,
        description := some ("Internet"), categoryId := some 9,
        date := dateSec 2024 3 10 0 0 0 }]
    bills := []
    categories := [
      { id := 8, userId := 1, name := "Aluguel", kind := CategoryKind.EXPENSE_FIXED },
      { id := 9, userId := 1, name := "Internet", kind := CategoryKind.EXPENSE_FIXED }]
    billTemplates := []
    nextId := 3 }

/-- The negative-amount additivity store: a fixed-category expense of 5 and
an uncategorized expense of −3 (storable through POST /transactions, which
never checks the sign) in March 2024, owned by 1. -/
def c2nDB : DB :=
  { transactions := [
      { id := 1, userId := 1, amount := 5, type := TransactionType.EXPENSE,
        description := some ("Aluguel"), categoryId := some 8,
        date := dateSec 2024 3 1 0 0 0 },
      { id := 2, userId := 1, amount := -3, type := TransactionType.EXPENSE,
        description := none, categoryId := none,
        date := dateSec 2024 3 10 0 0 0 }]
    bills := []
    categories := [
      { id := 8, userId := 1, name := "Aluguel", kind := CategoryKind.EXPENSE_FIXED }]
    billTemplates := []
    nextId := 3 }

/-- Concrete witness for C1: a one-bill store, paid twice. -/
def c1DB : DB :=
  { transactions := []
    bills := [{ id := 10, userId := 1, description := "Internet", amount := 120,
                dueDate := dateSec 2024 3 10 0 0 0, categoryId := some 4,
                recurrence := BillRecurrence.MONTHLY, reminderDays := 1,
                paid := false, paidAt := none, paidTransactionId := none,
                billTemplateId := none }]
    categories := []
    billTemplates := []
    nextId := 11 }

/-- The bill of `c1DB`. -/
def c1Bill : Bill :=
  { id := 10, userId := 1, description := "Internet", amount := 120,
    dueDate := dateSec 2024 3 10 0 0 0, categoryId := some 4,
    recurrence := BillRecurrence.MONTHLY, reminderDays := 1,
    paid := false, paidAt := none, paidTransactionId := none,
    billTemplateId := none }

/-- The basic-overview scenario store: a 5000 income, a 1500 fixed-category
expense, a 300 variable-category expense, all in March 2024, owned by 1. -/
def c2DB : DB :=
  { transactions := [
      { id := 1, userId := 1, amount := 5000, type := TransactionType.INCOME,
        description := some "Salário", categoryId := some 7,
        date := dateSec 2024 3 5 0 0 0 },
      { id := 2, userId := 1, amount := 1500, type := TransactionType.EXPENSE,
        description := some "Aluguel", categoryId := some 8,
        date := dateSec 2024 3 1 0 0 0 },
      { id := 3, userId := 1, amount := 300, type := TransactionType.EXPENSE,
        description := some "Mercado", categoryId := some 9,
        date := dateSec 2024 3 10 0 0 0 }]
    bills := []
    categories := [
      { id := 7, userId := 1, name := "Salário", kind := CategoryKind.INCOME },
      { id := 8, userId := 1, name := "Aluguel", kind := CategoryKind.EXPENSE_FIXED },
      { id := 9, userId := 1, name := "Mercado", kind := CategoryKind.EXPENSE_VARIABLE }]
    billTemplates := []
    nextId := 4 }

/-- The leap-clamp scenario template: `dueDay = 31`, active, owned by 1. -/
def c6Template : BillTemplate :=
  { id := 20, userId := 1, description := "Cartão", amount := 800,
    categoryId := none, dueDay := 31, recurrence := BillRecurrence.MONTHLY,
    active := true, reminderDays := 1 }

/-- The leap-clamp scenario store. -/
def c6DB : DB :=
  { transactions := [], bills := [], categories := [],
    billTemplates := [c6Template], nextId := 21 }

/-! ### Per-rule decomposition of the advice list (for the ordering claim) -/

/-- Rule 1 contribution. -/
def ruleNoIncome (tI tE : ℚ) : List Advisory :=
  if tI ≤ 0 ∧ 0 < tE then [noIncomeAdvisory] else []

/-- Rule 2 contribution. -/
def ruleHighFixed (tI fE : ℚ) : List Advisory :=
  if 0 < tI then
    (if 1 / 2 < fE / tI then [highFixedAdvisory (fE / tI)] else [])
  else []

/-- Rule 3 contribution. -/
def ruleHighVariable (tI vE : ℚ) : List Advisory :=
  if 0 < tI then
    (if 3 / 10 < vE / tI then [highVariableAdvisory (vE / tI)] else [])
  else []

/-- Rule 4 contribution. -/
def ruleNegativeBalance (bal : ℚ) : List Advisory :=
  if bal < 0 then [negativeBalanceAdvisory |bal|] else []

/-- Rule 5 contribution. -/
def ruleTopCategory (tE : ℚ) (cats : List (Category × ℚ)) : List Advisory :=
  match cats with
  | [] => []
  | h :: t =>
    if 0 < tE then
      (if 3 / 10 < (topExpenseCategory h t).2 / tE then
        [topCategoryAdvisory (topExpenseCategory h t).1.name
          ((topExpenseCategory h t).2 / tE)]
      else [])
    else []

/-- Rule 6 contribution. -/
def ruleUpcoming (upcoming : List Bill) : List Advisory :=
  if upcoming ≠ [] then [upcomingBillsAdvisory (sumBillAmounts upcoming)] else []

/-- The negative-balance scenario store: income 1000, expense 1500 in
March 2024, owned by 1. -/
def c7DB : DB :=
  { transactions := [
      { id := 1, userId := 1, amount := 1000, type := TransactionType.INCOME,
        description := none, categoryId := none,
        date := dateSec 2024 3 2 0 0 0 },
      { id := 2, userId := 1, amount := 1500, type := TransactionType.EXPENSE,
        description := none, categoryId := none,
        date := dateSec 2024 3 15 0 0 0 }]
    bills := []
    categories := []
    billTemplates := []
    nextId := 3 }

/-! ### Cross-owner isolation (C8) -/

/-- Owner 1's data alone: an income of 600 and an expense of 500 whose
`categoryId` points at id 100 — an id owner 1 does not own. -/
def c8DBA : DB :=
  { transactions := [
      { id := 1, userId := 1, amount := 600, type := TransactionType.INCOME,
        description := none, categoryId := none,
        date := dateSec 2024 3 2 0 0 0 },
      { id := 2, userId := 1, amount := 500, type := TransactionType.EXPENSE,
        description := none, categoryId := some 100,
        date := dateSec 2024 3 3 0 0 0 }]
    bills := []
    categories := []
    billTemplates := []
    nextId := 3 }

/-- Owner 2's category, carrying the id 100 that owner 1's expense
references. -/
def c8CatB : Category :=
  { id := 100, userId := 2, name := "SegredoB",
    kind := CategoryKind.EXPENSE_FIXED }

/-- The same store plus one category that belongs to owner 2 and happens to
carry id 100. -/
def c8DBB : DB :=
  { c8DBA with categories := [c8CatB] }

/-! ### The paid-bill backing invariant (C4) -/

instance {ε α : Type} [DecidableEq ε] [DecidableEq α] :
    DecidableEq (Except ε α) := fun a b =>
  match a, b with
  | Except.error e, Except.error f =>
    if h : e = f then isTrue (by rw [h]) else
      isFalse (fun hh => h (by injection hh))
  | Except.ok x, Except.ok y =>
    if h : x = y then isTrue (by rw [h]) else
      isFalse (fun hh => h (by injection hh))
  | Except.error _, Except.ok _ => isFalse (fun hh => Except.noConfusion hh)
  | Except.ok _, Except.error _ => isFalse (fun hh => Except.noConfusion hh)

/-- One transaction backs a paid bill when it has the recorded id, the
bill's amount, category and description, and is dated at the bill's payment
time. -/
def txBacksBill (db : DB) (b : Bill) (tid : Nat) : Bool :=
  db.transactions.any (fun t => t.id == tid && decide (t.amount = b.amount) &&
    decide (t.categoryId = b.categoryId) &&
    decide (t.description = some b.description) &&
    decide (b.paidAt = some t.date))

/-- The spec's bill invariant, per bill: once paid, `paidTransactionId` is
non-null and refers to a backing transaction. -/
def paidBacked (db : DB) (b : Bill) : Bool :=
  !b.paid ||
    (match b.paidTransactionId with
     | none => false
     | some tid => txBacksBill db b tid)

/-- The spec's bill invariant over the whole store. -/
def billInvariant (db : DB) : Bool :=
  db.bills.all (paidBacked db)

/-- The store after paying the bill of `c1DB` at time 50. -/
def c4DB1 : DB :=
  { transactions := [
      { id := 11, userId := 1, amount := 120, type := TransactionType.EXPENSE,
        description := some "Internet", categoryId := some 4, date := 50 }]
    bills := [{ id := 10, userId := 1, description := "Internet", amount := 120,
                dueDate := dateSec 2024 3 10 0 0 0, categoryId := some 4,
                recurrence := BillRecurrence.MONTHLY, reminderDays := 1,
                paid := true, paidAt := some 50, paidTransactionId := some 11,
                billTemplateId := none }]
    categories := []
    billTemplates := []
    nextId := 12 }

/-- The paid bill row of `c4DB1`. -/
def c4BillPaid : Bill :=
  { id := 10, userId := 1, description := "Internet", amount := 120,
    dueDate := dateSec 2024 3 10 0 0 0, categoryId := some 4,
    recurrence := BillRecurrence.MONTHLY, reminderDays := 1,
    paid := true, paidAt := some 50, paidTransactionId := some 11,
    billTemplateId := none }

/-- The store after the owner deletes the backing transaction. -/
def c4DB2 : DB :=
  { c4DB1 with transactions := [] }

/-! ### Shared list lemmas -/

/-- `find?` commutes with a map that does not change the predicate's
verdict. -/
theorem find?_map_of_pred_inv {α : Type} (l : List α) (p : α → Bool) (f : α → α)
    (hf : ∀ x, p (f x) = p x) {b : α} (h : l.find? p = some b) :
    (l.map f).find? p = some (f b) := by
  induction l with
  | nil => simp at h
  | cons x xs ih =>
    by_cases hx : p x = true
    · rw [List.find?_cons_of_pos _ hx] at h
      injection h with h
      subst h
      have hfx : p (f x) = true := by rw [hf]; exact hx
      simp only [List.map_cons]
      rw [List.find?_cons_of_pos _ hfx]
    · have hx' : ¬p x = true := hx
      rw [List.find?_cons_of_neg _ hx'] at h
      have hfx : ¬p (f x) = true := by rw [hf]; exact hx'
      simp only [List.map_cons]
      rw [List.find?_cons_of_neg _ hfx]
      exact ih h

/-! ### Claim theorems -/

/-- Claim C1: for every owner and bill, paying twice creates exactly one
transaction in total.  The first call on an unpaid bill appends exactly one
Expense transaction carrying the bill's amount, description and category,
and marks the bill paid; the second call (at any later time `now'`) returns
the very same store and bill state, creating nothing — `payBill` is
idempotent. -/
theorem payBill_idempotent (db : DB) (uid billId : Nat) (now now' : Int) (b : Bill)
    (hfind : db.bills.find? (fun x => x.id == billId && x.userId == uid) = some b)
    (hunpaid : b.paid = false) :
    ∃ db1 b1,
      payBill db uid billId now = Except.ok (db1, b1) ∧
      db1.transactions = db.transactions ++
        [{ id := db.nextId, userId := uid, amount := b.amount,
           type := TransactionType.EXPENSE, description := some b.description,
           categoryId := b.categoryId, date := now }] ∧
      b1 = markPaid now db.nextId b ∧
      payBill db1 uid billId now' = Except.ok (db1, b1) := by
  refine
    ⟨{ db with
        transactions := db.transactions ++
          [{ id := db.nextId, userId := uid, amount := b.amount,
             type := TransactionType.EXPENSE, description := some b.description,
             categoryId := b.categoryId, date := now }]
        bills := db.bills.map (fun x =>
          if x.id == b.id then markPaid now db.nextId x else x)
        nextId := db.nextId + 1 },
      markPaid now db.nextId b, ?_, rfl, rfl, ?_⟩
  · unfold payBill
    rw [hfind]
    simp [hunpaid, markPaid]
  · unfold payBill
    have hmap :
        ((db.bills.map (fun x =>
          if x.id == b.id then markPaid now db.nextId x else x)).find?
            (fun x => x.id == billId && x.userId == uid)) =
          some (if b.id == b.id then markPaid now db.nextId b else b) := by
      refine find?_map_of_pred_inv _ _ _ (fun x => ?_) hfind
      by_cases hx : (x.id == b.id) = true
      · simp [hx, markPaid]
      · simp [hx]
    simp only [beq_self_eq_true, if_true] at hmap
    rw [hmap]
    simp [markPaid]

/-- Claim C10: at POST /transactions the only validation on the amount is
the falsiness check `!amount || !type`: a missing amount, a zero amount and
a missing type get the 400 ValidationError; every negative amount is
accepted and stored unchanged, so stored amounts are not guaranteed
positive. -/
theorem createTransaction_validation (db : DB) (uid : Nat) (a : ℚ)
    (ty : TransactionType) (descr : Option String) (cid : Option Nat)
    (d : Option Int) (now : Int) :
    createTransaction db uid none (some ty) descr cid d now =
      Except.error ValidationError.validation ∧
    createTransaction db uid (some 0) (some ty) descr cid d now =
      Except.error ValidationError.validation ∧
    createTransaction db uid (some a) none descr cid d now =
      Except.error ValidationError.validation ∧
    (a < 0 →
      createTransaction db uid (some a) (some ty) descr cid d now =
        Except.ok
          ({ db with
              transactions := db.transactions ++
                [{ id := db.nextId, userId := uid, amount := a, type := ty,
                   description := descr, categoryId := cid, date := d.getD now }]
              nextId := db.nextId + 1 },
            { id := db.nextId, userId := uid, amount := a, type := ty,
              description := descr, categoryId := cid, date := d.getD now })) := by
  refine ⟨rfl, by simp [createTransaction], rfl, fun ha => ?_⟩
  have hne : ¬a = 0 := by exact ne_of_lt ha
  simp [createTransaction, hne]

/-- Witness for C1 at a concrete store: both hypotheses hold and the
conclusion follows by the theorem. -/
theorem payBill_idempotent_witness :
    c1DB.bills.find? (fun x => x.id == 10 && x.userId == 1) = some c1Bill ∧
    c1Bill.paid = false ∧
    ∃ db1 b1,
      payBill c1DB 1 10 5 = Except.ok (db1, b1) ∧
      db1.transactions = c1DB.transactions ++
        [{ id := c1DB.nextId, userId := 1, amount := c1Bill.amount,
           type := TransactionType.EXPENSE, description := some c1Bill.description,
           categoryId := c1Bill.categoryId, date := 5 }] ∧
      b1 = markPaid 5 c1DB.nextId c1Bill ∧
      payBill db1 1 10 99 = Except.ok (db1, b1) :=
  ⟨by simp +decide [c1DB, c1Bill], rfl,
    payBill_idempotent c1DB 1 10 5 99 c1Bill (by simp +decide [c1DB, c1Bill]) rfl⟩

/-- Witness for C10 at a concrete negative amount. -/
theorem createTransaction_validation_witness :
    ((-5 : ℚ) < 0) ∧
    (createTransaction c1DB 1 (some (-5)) (some TransactionType.EXPENSE)
        none none none 7 =
      Except.ok
        ({ c1DB with
            transactions := c1DB.transactions ++
              [{ id := c1DB.nextId, userId := 1, amount := -5,
                 type := TransactionType.EXPENSE, description := none,
                 categoryId := none, date := (none : Option Int).getD 7 }]
            nextId := c1DB.nextId + 1 },
          { id := c1DB.nextId, userId := 1, amount := -5,
            type := TransactionType.EXPENSE, description := none,
            categoryId := none, date := (none : Option Int).getD 7 })) :=
  ⟨by norm_num,
    (createTransaction_validation c1DB 1 (-5) TransactionType.EXPENSE
      none none none 7).2.2.2 (by norm_num)⟩

/-- Claim C3: zero-income safety.  When a period's total income is zero the
three ratio fields are exactly zero: every division by `totalIncome` in the
route is guarded by the `totalIncome > 0` test (in this exact-arithmetic
embedding the guard is what makes the zero-income ratios well-defined at
all, mirroring the source's NaN/Infinity avoidance). -/
theorem monthOverview_zero_income_safety (db : DB) (uid : Nat) (y : Int) (m : Nat)
    (h : (monthOverview db uid y m).totals.income = 0) :
    (monthOverview db uid y m).totals.savingsRate = 0 ∧
    (monthOverview db uid y m).totals.fixedPct = 0 ∧
    (monthOverview db uid y m).totals.variablePct = 0 := by
  have h' : totalIncome db uid (periodStart y m) (periodEnd y m) = 0 := h
  refine ⟨?_, ?_, ?_⟩ <;> simp [monthOverview, h']

/-- Witness for C3: an expense-only store has zero income and zero ratios. -/
theorem monthOverview_zero_income_safety_witness :
    (monthOverview c1DB 1 2024 3).totals.income = 0 ∧
    ((monthOverview c1DB 1 2024 3).totals.savingsRate = 0 ∧
     (monthOverview c1DB 1 2024 3).totals.fixedPct = 0 ∧
     (monthOverview c1DB 1 2024 3).totals.variablePct = 0) :=
  ⟨by simp [monthOverview, totalIncome, sumAmounts, c1DB],
    monthOverview_zero_income_safety c1DB 1 2024 3
      (by simp [monthOverview, totalIncome, sumAmounts, c1DB])⟩

/-- Sum over a cons. -/
theorem sumAmounts_cons (x : Transaction) (l : List Transaction) :
    sumAmounts (x :: l) = x.amount + sumAmounts l := by
  simp [sumAmounts]

/-- The additivity invariant, proven by one induction over the transaction
table: the fixed and variable buckets sum to at most the expense total, with
equality exactly when every in-scope expense transaction resolves to a
fixed- or variable-kind category. -/
theorem bucket_split_aux (db : DB) (uid : Nat) (ps pe : Int)
    (l : List Transaction) (hpos : ∀ t ∈ l, 0 < t.amount) :
    sumAmounts (l.filter (fun t => decide (txInScope uid ps pe t ∧
        t.type = TransactionType.EXPENSE ∧
        classKind db t = some CategoryKind.EXPENSE_FIXED))) +
      sumAmounts (l.filter (fun t => decide (txInScope uid ps pe t ∧
        t.type = TransactionType.EXPENSE ∧
        classKind db t = some CategoryKind.EXPENSE_VARIABLE))) ≤
      sumAmounts (l.filter (fun t => decide (txInScope uid ps pe t ∧
        t.type = TransactionType.EXPENSE))) ∧
    (sumAmounts (l.filter (fun t => decide (txInScope uid ps pe t ∧
        t.type = TransactionType.EXPENSE ∧
        classKind db t = some CategoryKind.EXPENSE_FIXED))) +
      sumAmounts (l.filter (fun t => decide (txInScope uid ps pe t ∧
        t.type = TransactionType.EXPENSE ∧
        classKind db t = some CategoryKind.EXPENSE_VARIABLE))) =
      sumAmounts (l.filter (fun t => decide (txInScope uid ps pe t ∧
        t.type = TransactionType.EXPENSE))) ↔
      ∀ t ∈ l, txInScope uid ps pe t → t.type = TransactionType.EXPENSE →
        (classKind db t = some CategoryKind.EXPENSE_FIXED ∨
         classKind db t = some CategoryKind.EXPENSE_VARIABLE)) := by
  induction l with
  | nil => simp [sumAmounts]
  | cons x xs ih =>
    have hxpos : 0 < x.amount := hpos x (List.mem_cons_self x xs)
    have ihx := ih (fun t ht => hpos t (List.mem_cons_of_mem x ht))
    obtain ⟨ihle, ihiff⟩ := ihx
    by_cases hS : txInScope uid ps pe x ∧ x.type = TransactionType.EXPENSE
    · obtain ⟨hS1, hS2⟩ := hS
      rcases hcF : classKind db x with _ | k
      · -- no category resolves: only the expense total takes x
        simp only [List.filter_cons, decide_eq_true_eq]
        rw [if_neg (by simp [hcF]), if_neg (by simp [hcF]), if_pos ⟨hS1, hS2⟩]
        rw [sumAmounts_cons]
        constructor
        · linarith
        · constructor
          · intro heq
            exfalso
            linarith
          · intro hall
            exfalso
            have := hall x (List.mem_cons_self x xs) hS1 hS2
            simp [hcF] at this
      · cases k with
        | EXPENSE_FIXED =>
          simp only [List.filter_cons, decide_eq_true_eq]
          rw [if_pos ⟨hS1, hS2, hcF⟩, if_neg (by simp [hcF]),
            if_pos ⟨hS1, hS2⟩]
          rw [sumAmounts_cons, sumAmounts_cons]
          constructor
          · linarith
          · constructor
            · intro heq
              intro t ht hts htE
              rcases List.mem_cons.mp ht with rfl | htxs
              · exact Or.inl hcF
              · exact (ihiff.mp (by linarith)) t htxs hts htE
            · intro hall
              have : sumAmounts (xs.filter _) + sumAmounts (xs.filter _) =
                  sumAmounts (xs.filter _) :=
                ihiff.mpr (fun t ht => hall t (List.mem_cons_of_mem x ht))
              linarith [this]
        | EXPENSE_VARIABLE =>
          simp only [List.filter_cons, decide_eq_true_eq]
          rw [if_neg (by simp [hcF]), if_pos ⟨hS1, hS2, hcF⟩,
            if_pos ⟨hS1, hS2⟩]
          rw [sumAmounts_cons, sumAmounts_cons]
          constructor
          · linarith
          · constructor
            · intro heq
              intro t ht hts htE
              rcases List.mem_cons.mp ht with rfl | htxs
              · exact Or.inr hcF
              · exact (ihiff.mp (by linarith)) t htxs hts htE
            · intro hall
              have : sumAmounts (xs.filter _) + sumAmounts (xs.filter _) =
                  sumAmounts (xs.filter _) :=
                ihiff.mpr (fun t ht => hall t (List.mem_cons_of_mem x ht))
              linarith [this]
        | INCOME =>
          simp only [List.filter_cons, decide_eq_true_eq]
          rw [if_neg (by simp [hcF]), if_neg (by simp [hcF]),
            if_pos ⟨hS1, hS2⟩]
          rw [sumAmounts_cons]
          constructor
          · linarith
          · constructor
            · intro heq
              exfalso
              linarith
            · intro hall
              exfalso
              have := hall x (List.mem_cons_self x xs) hS1 hS2
              simp [hcF] at this
    · -- out of scope or not an expense: no filter takes x
      simp only [List.filter_cons, decide_eq_true_eq]
      rw [if_neg (fun h => hS ⟨h.1, h.2.1⟩), if_neg (fun h => hS ⟨h.1, h.2.1⟩),
        if_neg hS]
      refine ⟨ihle, Iff.trans ihiff ?_⟩
      constructor
      · intro hall t ht hts htE
        rcases List.mem_cons.mp ht with rfl | htxs
        · exact absurd ⟨hts, htE⟩ hS
        · exact hall t htxs hts htE
      · exact fun hall t ht => hall t (List.mem_cons_of_mem x ht)

/-! ### Evaluation lemmas for the binary64 model (C9) -/

/-- Ties-to-even rounding fixes integers. -/
theorem roundTiesToEven_intCast (z : ℤ) : roundTiesToEven (z : ℚ) = z := by
  unfold roundTiesToEven
  rw [Int.floor_intCast, sub_self]
  norm_num

/-- Rounding below the midpoint truncates. -/
theorem roundTiesToEven_of_lt (x : ℚ) (f : ℤ) (hf : ⌊x⌋ = f)
    (h : x - f < 1 / 2) : roundTiesToEven x = f := by
  unfold roundTiesToEven
  rw [hf]
  rw [if_pos h]

/-- Rounding above the midpoint rounds up. -/
theorem roundTiesToEven_of_gt (x : ℚ) (f : ℤ) (hf : ⌊x⌋ = f)
    (h : 1 / 2 < x - f) : roundTiesToEven x = f + 1 := by
  unfold roundTiesToEven
  rw [hf, if_neg (by linarith), if_pos h]

/-- A tie at an odd floor rounds up to the even neighbour. -/
theorem roundTiesToEven_tie_odd (x : ℚ) (f : ℤ) (hf : ⌊x⌋ = f)
    (h : x - f = 1 / 2) (hodd : ¬f % 2 = 0) : roundTiesToEven x = f + 1 := by
  unfold roundTiesToEven
  rw [hf, h, if_neg (by norm_num), if_neg (by norm_num), if_neg hodd]

/-- Evaluating the rounding of a positive value from its exponent and
rounded significand. -/
theorem float64Round_eval (x : ℚ) (e m : ℤ) (hx : 0 < x)
    (he : floorLog2Pos x = e)
    (hm : roundTiesToEven (x * 2 ^ (52 - e)) = m) :
    float64Round x = (m : ℚ) * 2 ^ (e - 52) := by
  unfold float64Round float64RoundPos
  rw [if_neg (ne_of_gt hx), if_pos hx, he, hm]

/-- Exponent of a positive value below one, from its reciprocal's ceiling. -/
theorem floorLog2Pos_of_lt_one (x : ℚ) (hx : ¬1 ≤ x) (n : ℕ)
    (hc : ⌈x⁻¹⌉ = (n : ℤ)) :
    floorLog2Pos x = -(bitLen (n - 1) : ℤ) := by
  unfold floorLog2Pos
  rw [if_neg hx, hc]
  norm_num

/-- `Number(0.1)` is the double `3602879701896397 / 2 ^ 55`. -/
theorem float64Round_tenth :
    float64Round (1 / 10 : ℚ) = 3602879701896397 / 2 ^ 55 := by
  have e01 : floorLog2Pos (1 / 10 : ℚ) = -4 := by
    rw [floorLog2Pos_of_lt_one (1 / 10 : ℚ) (by norm_num) 10 (by norm_num)]
    decide
  have hf0 : ⌊(36028797018963968 : ℚ) / 5⌋ = 7205759403792793 := by
    rw [Int.floor_eq_iff]
    norm_num
  have r01 : roundTiesToEven ((1 / 10 : ℚ) * 2 ^ (52 - (-4 : ℤ))) =
      7205759403792794 := by
    have hx : (1 / 10 : ℚ) * 2 ^ (52 - (-4 : ℤ)) = 36028797018963968 / 5 := by
      norm_num
    rw [hx, roundTiesToEven_of_gt _ 7205759403792793 hf0 (by norm_num)]
    norm_num
  rw [float64Round_eval _ (-4) _ (by norm_num) e01 r01]
  norm_num

/-- `Number(0.2)` is the double `3602879701896397 / 2 ^ 54`. -/
theorem float64Round_fifth :
    float64Round (2 / 10 : ℚ) = 3602879701896397 / 2 ^ 54 := by
  have e02 : floorLog2Pos (2 / 10 : ℚ) = -3 := by
    rw [floorLog2Pos_of_lt_one (2 / 10 : ℚ) (by norm_num) 5 (by norm_num)]
    decide
  have hf0 : ⌊(36028797018963968 : ℚ) / 5⌋ = 7205759403792793 := by
    rw [Int.floor_eq_iff]
    norm_num
  have r02 : roundTiesToEven ((2 / 10 : ℚ) * 2 ^ (52 - (-3 : ℤ))) =
      7205759403792794 := by
    have hx : (2 / 10 : ℚ) * 2 ^ (52 - (-3 : ℤ)) = 36028797018963968 / 5 := by
      norm_num
    rw [hx, roundTiesToEven_of_gt _ 7205759403792793 hf0 (by norm_num)]
    norm_num
  rw [float64Round_eval _ (-3) _ (by norm_num) e02 r02]
  norm_num

/-- The double of 0.1 is a fixed point of the rounding. -/
theorem float64Round_tenth_fixpoint :
    float64Round (3602879701896397 / 2 ^ 55 : ℚ) =
      3602879701896397 / 2 ^ 55 := by
  have e1x : floorLog2Pos (3602879701896397 / 2 ^ 55 : ℚ) = -4 := by
    have hc : ⌈((3602879701896397 : ℚ) / 2 ^ 55)⁻¹⌉ = ((10 : ℕ) : ℤ) := by
      rw [show ((3602879701896397 : ℚ) / 2 ^ 55)⁻¹ =
        36028797018963968 / 3602879701896397 by norm_num]
      rw [Int.ceil_eq_iff]
      norm_num
    rw [floorLog2Pos_of_lt_one _ (by norm_num) 10 hc]
    decide
  have r1x : roundTiesToEven ((3602879701896397 / 2 ^ 55 : ℚ) *
      2 ^ (52 - (-4 : ℤ))) = 7205759403792794 := by
    have hx : (3602879701896397 / 2 ^ 55 : ℚ) * 2 ^ (52 - (-4 : ℤ)) =
        ((7205759403792794 : ℤ) : ℚ) := by norm_num
    rw [hx, roundTiesToEven_intCast]
  rw [float64Round_eval _ (-4) _ (by norm_num) e1x r1x]
  norm_num

/-- The float sum of the doubles of 0.1 and 0.2 is a tie, resolved to the
even neighbour: the famous `0.30000000000000004`. -/
theorem float64Round_drift_sum :
    float64Round (10808639105689191 / 2 ^ 55 : ℚ) =
      1351079888211149 / 2 ^ 52 := by
  have eS : floorLog2Pos (10808639105689191 / 2 ^ 55 : ℚ) = -2 := by
    have hc : ⌈((10808639105689191 : ℚ) / 2 ^ 55)⁻¹⌉ = ((4 : ℕ) : ℤ) := by
      rw [show ((10808639105689191 : ℚ) / 2 ^ 55)⁻¹ =
        36028797018963968 / 10808639105689191 by norm_num]
      rw [Int.ceil_eq_iff]
      norm_num
    rw [floorLog2Pos_of_lt_one _ (by norm_num) 4 hc]
    decide
  have rS : roundTiesToEven ((10808639105689191 / 2 ^ 55 : ℚ) *
      2 ^ (52 - (-2 : ℤ))) = 5404319552844596 := by
    have hx : (10808639105689191 / 2 ^ 55 : ℚ) * 2 ^ (52 - (-2 : ℤ)) =
        10808639105689191 / 2 := by norm_num
    have hfS : ⌊(10808639105689191 : ℚ) / 2⌋ = 5404319552844595 := by
      rw [Int.floor_eq_iff]
      norm_num
    rw [hx, roundTiesToEven_tie_odd _ 5404319552844595 hfS (by norm_num) (by decide)]
    norm_num
  rw [float64Round_eval _ (-2) _ (by norm_num) eS rS]
  norm_num

/-- `Number(0.3)` is the double `5404319552844595 / 2 ^ 54`, one ulp below
the drifted float sum of 0.1 and 0.2. -/
theorem float64Round_three_tenths :
    float64Round (3 / 10 : ℚ) = 5404319552844595 / 2 ^ 54 := by
  have e03 : floorLog2Pos (3 / 10 : ℚ) = -2 := by
    have hc : ⌈((3 : ℚ) / 10)⁻¹⌉ = ((4 : ℕ) : ℤ) := by
      rw [show ((3 : ℚ) / 10)⁻¹ = 10 / 3 by norm_num]
      rw [Int.ceil_eq_iff]
      norm_num
    rw [floorLog2Pos_of_lt_one _ (by norm_num) 4 hc]
    decide
  have r03 : roundTiesToEven ((3 / 10 : ℚ) * 2 ^ (52 - (-2 : ℤ))) =
      5404319552844595 := by
    have hx : (3 / 10 : ℚ) * 2 ^ (52 - (-2 : ℤ)) =
        27021597764222976 / 5 := by norm_num
    have hf3 : ⌊(27021597764222976 : ℚ) / 5⌋ = 5404319552844595 := by
      rw [Int.floor_eq_iff]
      norm_num
    rw [hx, roundTiesToEven_of_lt _ 5404319552844595 hf3 (by norm_num)]
  rw [float64Round_eval _ (-2) _ (by norm_num) e03 r03]
  norm_num

/-- Claim C2 amended: month-overview additivity holds for the store-side
exact decimal sums, under the data model's invariant that amounts are
positive decimals: `fixedExpenses + variableExpenses ≤ totalExpense`, with
equality exactly when every expense transaction of the owner in the period
resolves (through the route's unscoped id lookup) to a category of fixed-
or variable-expense kind; unclassifiable expense transactions stay inside
`totalExpense` only.  As stated — over the route's binary64 values and
without the positivity restriction — the claim is false, see
the counterexample on `c2fDB` and `c2nDB`. -/
theorem monthOverview_additivity (db : DB) (uid : Nat) (y : Int) (m : Nat)
    (hpos : ∀ t ∈ db.transactions, 0 < t.amount) :
    (monthOverview db uid y m).totals.fixedExpenses +
      (monthOverview db uid y m).totals.variableExpenses ≤
      (monthOverview db uid y m).totals.expense ∧
    ((monthOverview db uid y m).totals.fixedExpenses +
        (monthOverview db uid y m).totals.variableExpenses =
        (monthOverview db uid y m).totals.expense ↔
      ∀ t ∈ db.transactions,
        txInScope uid (periodStart y m) (periodEnd y m) t →
        t.type = TransactionType.EXPENSE →
        (classKind db t = some CategoryKind.EXPENSE_FIXED ∨
         classKind db t = some CategoryKind.EXPENSE_VARIABLE)) :=
  bucket_split_aux db uid (periodStart y m) (periodEnd y m) db.transactions hpos

/-- Claim C2 fails on the code as stated.  The route evaluates the sums in
binary64: with fixed-category expenses 0.10 and 0.20 in two distinct
categories (`c2fDB`), the float-accumulated fixed bucket is the drifted
`0.30000000000000004` while `totalExpense` is `Number(0.3)` — one ulp
below it — so `fixedExpenses + variableExpenses ≤ totalExpense` is
violated by the program's own output values.  And even over exact decimal
sums the unrestricted claim fails: a store holding a negative
uncategorized expense (`c2nDB`, reachable because POST /transactions never
checks the sign) has fixed 5, variable 0, total 2. -/
theorem monthOverview_additivity_counterexample :
    fixedExpensesFloat64 c2fDB 1 (periodStart 2024 3) (periodEnd 2024 3) =
      1351079888211149 / 2 ^ 52 ∧
    variableExpensesFloat64 c2fDB 1 (periodStart 2024 3) (periodEnd 2024 3) = 0 ∧
    totalExpenseFloat64 c2fDB 1 (periodStart 2024 3) (periodEnd 2024 3) =
      5404319552844595 / 2 ^ 54 ∧
    ¬(fixedExpensesFloat64 c2fDB 1 (periodStart 2024 3) (periodEnd 2024 3) +
        variableExpensesFloat64 c2fDB 1 (periodStart 2024 3) (periodEnd 2024 3) ≤
        totalExpenseFloat64 c2fDB 1 (periodStart 2024 3) (periodEnd 2024 3)) ∧
    ¬((monthOverview c2nDB 1 2024 3).totals.fixedExpenses +
        (monthOverview c2nDB 1 2024 3).totals.variableExpenses ≤
        (monthOverview c2nDB 1 2024 3).totals.expense) := by
  have hg : expenseGroupIds c2fDB 1 (periodStart 2024 3) (periodEnd 2024 3) =
      [8, 9] := by
    simp +decide [expenseGroupIds, c2fDB]
  have hce8 : categoryExpense c2fDB 1 (periodStart 2024 3) (periodEnd 2024 3) 8 =
      1 / 10 := by
    simp +decide [categoryExpense, sumAmounts, c2fDB]
  have hce9 : categoryExpense c2fDB 1 (periodStart 2024 3) (periodEnd 2024 3) 9 =
      2 / 10 := by
    simp +decide [categoryExpense, sumAmounts, c2fDB]
  have hc8 : (findCategory c2fDB 8).map (fun c => c.kind) =
      some CategoryKind.EXPENSE_FIXED := by decide
  have hc9 : (findCategory c2fDB 9).map (fun c => c.kind) =
      some CategoryKind.EXPENSE_FIXED := by decide
  have hfix : fixedExpensesFloat64 c2fDB 1 (periodStart 2024 3)
      (periodEnd 2024 3) = 1351079888211149 / 2 ^ 52 := by
    unfold fixedExpensesFloat64 bucketFloat64
    rw [hg]
    simp only [List.foldl_cons, List.foldl_nil]
    rw [if_pos hc8, if_pos hc9, hce8, hce9]
    rw [float64Round_tenth, float64Round_fifth]
    unfold jsAdd
    rw [zero_add, float64Round_tenth_fixpoint]
    rw [show (3602879701896397 / 2 ^ 55 : ℚ) + 3602879701896397 / 2 ^ 54 =
      10808639105689191 / 2 ^ 55 by norm_num]
    exact float64Round_drift_sum
  have hvar : variableExpensesFloat64 c2fDB 1 (periodStart 2024 3)
      (periodEnd 2024 3) = 0 := by
    unfold variableExpensesFloat64 bucketFloat64
    rw [hg]
    simp only [List.foldl_cons, List.foldl_nil]
    rw [if_neg (by decide), if_neg (by decide)]
  have hte : totalExpense c2fDB 1 (periodStart 2024 3) (periodEnd 2024 3) =
      3 / 10 := by
    simp +decide [totalExpense, sumAmounts, c2fDB]
    norm_num
  have htef : totalExpenseFloat64 c2fDB 1 (periodStart 2024 3)
      (periodEnd 2024 3) = 5404319552844595 / 2 ^ 54 := by
    unfold totalExpenseFloat64
    rw [hte]
    exact float64Round_three_tenths
  have hnf : (monthOverview c2nDB 1 2024 3).totals.fixedExpenses = 5 := by
    simp +decide [monthOverview, fixedExpenses, sumAmounts, classKind,
      findCategory, c2nDB]
  have hnv : (monthOverview c2nDB 1 2024 3).totals.variableExpenses = 0 := by
    simp +decide [monthOverview, variableExpenses, sumAmounts, classKind,
      findCategory, c2nDB]
  have hnexp : (monthOverview c2nDB 1 2024 3).totals.expense = 2 := by
    simp +decide [monthOverview, totalExpense, sumAmounts, c2nDB]
    norm_num
  refine ⟨hfix, hvar, htef, ?_, ?_⟩
  · rw [hfix, hvar, htef]
    norm_num
  · rw [hnf, hnv, hnexp]
    norm_num

/-- Witness for the amended C2: the scenario store satisfies the positivity
hypothesis and hence the additivity conclusion over the exact sums. -/
theorem monthOverview_additivity_witness :
    (∀ t ∈ c2DB.transactions, 0 < t.amount) ∧
    ((monthOverview c2DB 1 2024 3).totals.fixedExpenses +
      (monthOverview c2DB 1 2024 3).totals.variableExpenses ≤
      (monthOverview c2DB 1 2024 3).totals.expense ∧
    ((monthOverview c2DB 1 2024 3).totals.fixedExpenses +
        (monthOverview c2DB 1 2024 3).totals.variableExpenses =
        (monthOverview c2DB 1 2024 3).totals.expense ↔
      ∀ t ∈ c2DB.transactions,
        txInScope 1 (periodStart 2024 3) (periodEnd 2024 3) t →
        t.type = TransactionType.EXPENSE →
        (classKind c2DB t = some CategoryKind.EXPENSE_FIXED ∨
         classKind c2DB t = some CategoryKind.EXPENSE_VARIABLE))) :=
  have hpos : ∀ t ∈ c2DB.transactions, 0 < t.amount := by
    intro t ht
    simp [c2DB] at ht
    rcases ht with rfl | rfl | rfl <;> norm_num
  ⟨hpos, monthOverview_additivity c2DB 1 2024 3 hpos⟩

/-! ### Generation fold lemmas -/

/-- A skipped template (out-of-range due day) leaves the accumulator
unchanged. -/
theorem genStep_invalid (uid : Nat) (y : Int) (m : Nat) (ps pe : Int)
    (lastDay : Nat) (acc : DB × List Bill) (t : BillTemplate)
    (h : t.dueDay < 1 ∨ 31 < t.dueDay) :
    genStep uid y m ps pe lastDay acc t = acc := by
  unfold genStep
  rw [if_pos h]

/-- A template whose generated bill already exists leaves the accumulator
unchanged. -/
theorem genStep_existing (uid : Nat) (y : Int) (m : Nat) (ps pe : Int)
    (lastDay : Nat) (acc : DB × List Bill) (t : BillTemplate) (b : Bill)
    (h : ¬(t.dueDay < 1 ∨ 31 < t.dueDay))
    (hf : acc.1.bills.find? (fun b => decide (generatedBillFor uid ps pe t b)) =
      some b) :
    genStep uid y m ps pe lastDay acc t = acc := by
  unfold genStep
  rw [if_neg h, hf]

/-- A valid template with no existing generated bill creates one. -/
theorem genStep_create (uid : Nat) (y : Int) (m : Nat) (ps pe : Int)
    (lastDay : Nat) (db : DB) (created : List Bill) (t : BillTemplate)
    (h : ¬(t.dueDay < 1 ∨ 31 < t.dueDay))
    (hf : db.bills.find? (fun b => decide (generatedBillFor uid ps pe t b)) =
      none) :
    genStep uid y m ps pe lastDay (db, created) t =
      ({ db with
          bills := db.bills ++ [genBill uid y m lastDay db.nextId t]
          nextId := db.nextId + 1 },
        created ++ [genBill uid y m lastDay db.nextId t]) := by
  unfold genStep
  rw [if_neg h, hf]

/-- Structure of the generation fold: bills are only appended, the appended
rows are exactly the returned `created` rows (in order), templates and
transactions are untouched, and every appended row is a `genBill` of some
processed template. -/
theorem genFold_append (uid : Nat) (y : Int) (m : Nat) (ps pe : Int)
    (lastDay : Nat) :
    ∀ (ts : List BillTemplate) (db : DB) (created : List Bill),
    ∃ l : List Bill,
      (ts.foldl (genStep uid y m ps pe lastDay) (db, created)).1.bills =
        db.bills ++ l ∧
      (ts.foldl (genStep uid y m ps pe lastDay) (db, created)).2 =
        created ++ l ∧
      (ts.foldl (genStep uid y m ps pe lastDay) (db, created)).1.billTemplates =
        db.billTemplates ∧
      (ts.foldl (genStep uid y m ps pe lastDay) (db, created)).1.transactions =
        db.transactions ∧
      ∀ b ∈ l, ∃ t ∈ ts, ∃ nid : Nat, b = genBill uid y m lastDay nid t := by
  intro ts
  induction ts with
  | nil =>
    intro db created
    exact ⟨[], by simp, by simp, rfl, rfl, by simp⟩
  | cons t0 ts ih =>
    intro db created
    rw [List.foldl_cons]
    by_cases hday : t0.dueDay < 1 ∨ 31 < t0.dueDay
    · rw [genStep_invalid uid y m ps pe lastDay (db, created) t0 hday]
      obtain ⟨l, h1, h2, h3, h4, h5⟩ := ih db created
      exact ⟨l, h1, h2, h3, h4, fun b hb =>
        (h5 b hb).elim (fun t ht => ⟨t, List.mem_cons_of_mem t0 ht.1, ht.2⟩)⟩
    · cases hf : db.bills.find? (fun b => decide (generatedBillFor uid ps pe t0 b)) with
      | some b0 =>
        rw [genStep_existing uid y m ps pe lastDay (db, created) t0 b0 hday hf]
        obtain ⟨l, h1, h2, h3, h4, h5⟩ := ih db created
        exact ⟨l, h1, h2, h3, h4, fun b hb =>
          (h5 b hb).elim (fun t ht => ⟨t, List.mem_cons_of_mem t0 ht.1, ht.2⟩)⟩
      | none =>
        rw [genStep_create uid y m ps pe lastDay db created t0 hday hf]
        obtain ⟨l, h1, h2, h3, h4, h5⟩ :=
          ih { db with
                bills := db.bills ++ [genBill uid y m lastDay db.nextId t0]
                nextId := db.nextId + 1 }
            (created ++ [genBill uid y m lastDay db.nextId t0])
        refine ⟨genBill uid y m lastDay db.nextId t0 :: l, ?_, ?_, h3, h4, ?_⟩
        · rw [h1]; simp
        · rw [h2]; simp
        · intro b hb
          rcases List.mem_cons.mp hb with rfl | hbl
          · exact ⟨t0, List.mem_cons_self t0 ts, db.nextId, rfl⟩
          · obtain ⟨t, ht, nid, hg⟩ := h5 b hbl
            exact ⟨t, List.mem_cons_of_mem t0 ht, nid, hg⟩

/-- Period bounds of the clamped due date: a day between 1 and the month's
last day lands inside `[periodStart, periodEnd]`. -/
theorem dateSec_day_bounds (y : Int) (m d : Nat) (h1 : 1 ≤ d)
    (h2 : d ≤ daysInMonth y m) :
    periodStart y m ≤ dateSec y m d 0 0 0 ∧
    dateSec y m d 0 0 0 ≤ periodEnd y m := by
  unfold periodStart periodEnd dateSec
  constructor <;> omega

/-- After the fold, every valid processed template has a generated bill in
the store. -/
theorem genFold_coverage (uid : Nat) (y : Int) (m : Nat) :
    ∀ (ts : List BillTemplate) (db : DB) (created : List Bill),
    ∀ t ∈ ts, 1 ≤ t.dueDay → t.dueDay ≤ 31 →
    ∃ b ∈ (ts.foldl (genStep uid y m (periodStart y m) (periodEnd y m)
        (daysInMonth y m)) (db, created)).1.bills,
      generatedBillFor uid (periodStart y m) (periodEnd y m) t b := by
  intro ts
  induction ts with
  | nil => intro db created t ht; simp at ht
  | cons t0 ts ih =>
    intro db created t ht hd1 hd31
    rw [List.foldl_cons]
    by_cases hday : t0.dueDay < 1 ∨ 31 < t0.dueDay
    · rw [genStep_invalid uid y m _ _ _ (db, created) t0 hday]
      rcases List.mem_cons.mp ht with rfl | hts
      · omega
      · exact ih db created t hts hd1 hd31
    · cases hf : db.bills.find?
          (fun b => decide (generatedBillFor uid (periodStart y m) (periodEnd y m) t0 b)) with
      | some b0 =>
        rw [genStep_existing uid y m _ _ _ (db, created) t0 b0 hday hf]
        rcases List.mem_cons.mp ht with rfl | hts
        · -- the existing bill is still present after the tail fold
          have hb0mem : b0 ∈ db.bills := List.mem_of_find?_eq_some hf
          have hb0pred := List.find?_some hf
          obtain ⟨l, h1, _, _, _, _⟩ := genFold_append uid y m
            (periodStart y m) (periodEnd y m) (daysInMonth y m) ts db created
          refine ⟨b0, ?_, of_decide_eq_true hb0pred⟩
          rw [h1]
          exact List.mem_append_left _ hb0mem
        · exact ih db created t hts hd1 hd31
      | none =>
        rw [genStep_create uid y m _ _ _ db created t0 hday hf]
        rcases List.mem_cons.mp ht with rfl | hts
        · -- the newly created bill covers t
          obtain ⟨l, h1, _, _, _, _⟩ := genFold_append uid y m
            (periodStart y m) (periodEnd y m) (daysInMonth y m) ts
            { db with
                bills := db.bills ++ [genBill uid y m (daysInMonth y m) db.nextId t]
                nextId := db.nextId + 1 }
            (created ++ [genBill uid y m (daysInMonth y m) db.nextId t])
          refine ⟨genBill uid y m (daysInMonth y m) db.nextId t, ?_, ?_⟩
          · rw [h1]
            exact List.mem_append_left _ (List.mem_append_right _ (List.mem_singleton.mpr rfl))
          · have hmin1 : 1 ≤ min t.dueDay (daysInMonth y m) := by
              have : 28 ≤ daysInMonth y m := by
                unfold daysInMonth
                split <;> [split; split] <;> omega
              omega
            have hbounds := dateSec_day_bounds y m (min t.dueDay (daysInMonth y m))
              hmin1 (min_le_right _ _)
            exact ⟨rfl, rfl, hbounds.1, hbounds.2⟩
        · exact ih _ _ t hts hd1 hd31

/-- If every valid template already has a generated bill, the fold is the
identity: nothing is created and nothing is returned beyond the
accumulator. -/
theorem genFold_stall (uid : Nat) (y : Int) (m : Nat) (ps pe : Int)
    (lastDay : Nat) :
    ∀ (ts : List BillTemplate) (db : DB) (created : List Bill),
    (∀ t ∈ ts, 1 ≤ t.dueDay → t.dueDay ≤ 31 →
      ∃ b ∈ db.bills, generatedBillFor uid ps pe t b) →
    ts.foldl (genStep uid y m ps pe lastDay) (db, created) = (db, created) := by
  intro ts
  induction ts with
  | nil => intro db created _; rfl
  | cons t0 ts ih =>
    intro db created hcov
    rw [List.foldl_cons]
    by_cases hday : t0.dueDay < 1 ∨ 31 < t0.dueDay
    · rw [genStep_invalid uid y m ps pe lastDay (db, created) t0 hday]
      exact ih db created (fun t ht => hcov t (List.mem_cons_of_mem t0 ht))
    · obtain ⟨b0, hb0mem, hb0pred⟩ :=
        hcov t0 (List.mem_cons_self t0 ts) (by omega) (by omega)
      cases hf : db.bills.find?
          (fun b => decide (generatedBillFor uid ps pe t0 b)) with
      | some b1 =>
        rw [genStep_existing uid y m ps pe lastDay (db, created) t0 b1 hday hf]
        exact ih db created (fun t ht => hcov t (List.mem_cons_of_mem t0 ht))
      | none =>
        exfalso
        have := List.find?_eq_none.mp hf b0 hb0mem
        exact this (decide_eq_true hb0pred)

/-- Claim C5: generation idempotence.  The first call appends exactly the
returned rows (so only newly created bills are returned), and a second call
for the same owner and month, with no intervening changes, returns an empty
list and leaves the store untouched: no duplicate bill rows are created. -/
theorem generateBills_idempotent (db : DB) (uid : Nat) (y : Int) (m : Nat) :
    (generateBillsForMonth db uid y m).1.bills =
      db.bills ++ (generateBillsForMonth db uid y m).2 ∧
    generateBillsForMonth (generateBillsForMonth db uid y m).1 uid y m =
      ((generateBillsForMonth db uid y m).1, ([] : List Bill)) := by
  obtain ⟨l, h1, h2, h3, _, _⟩ := genFold_append uid y m (periodStart y m)
    (periodEnd y m) (daysInMonth y m) (activeTemplates db uid) db []
  have hcov := genFold_coverage uid y m (activeTemplates db uid) db []
  have hTempl :
      activeTemplates (((activeTemplates db uid).foldl
        (genStep uid y m (periodStart y m) (periodEnd y m) (daysInMonth y m))
        (db, [])).1) uid = activeTemplates db uid := by
    show List.filter _ _ = List.filter _ _
    rw [h3]
  constructor
  · simp only [generateBillsForMonth]
    rw [h1, h2]
    simp
  · simp only [generateBillsForMonth]
    rw [hTempl]
    exact genFold_stall uid y m (periodStart y m) (periodEnd y m)
      (daysInMonth y m) (activeTemplates db uid) _ []
      (fun t ht hd1 hd31 => hcov t ht hd1 hd31)

/-- During the fold, a valid template with no pre-existing generated bill
gets exactly its clamped bill created and returned (template ids pairwise
distinct so other templates cannot mask it). -/
theorem genFold_creates (uid : Nat) (y : Int) (m : Nat) (ps pe : Int)
    (lastDay : Nat) :
    ∀ (ts : List BillTemplate) (db : DB) (created : List Bill)
      (t : BillTemplate), t ∈ ts →
    (ts.map (fun x => x.id)).Nodup → 1 ≤ t.dueDay → t.dueDay ≤ 31 →
    (∀ b ∈ db.bills, ¬generatedBillFor uid ps pe t b) →
    ∃ b ∈ (ts.foldl (genStep uid y m ps pe lastDay) (db, created)).2,
      b.billTemplateId = some t.id ∧
      b.dueDate = dateSec y m (min t.dueDay lastDay) 0 0 0 := by
  intro ts
  induction ts with
  | nil => intro db created t ht; simp at ht
  | cons t0 ts ih =>
    intro db created t ht hnodup hd1 hd31 hclean
    rw [List.foldl_cons]
    rcases List.mem_cons.mp ht with rfl | hts
    · -- t is the head: it is valid and unmasked, so it creates
      have hday : ¬(t.dueDay < 1 ∨ 31 < t.dueDay) := by omega
      have hf : db.bills.find?
          (fun b => decide (generatedBillFor uid ps pe t b)) = none :=
        List.find?_eq_none.mpr (fun b hb => by
          simp only [decide_eq_true_eq]
          exact hclean b hb)
      rw [genStep_create uid y m ps pe lastDay db created t hday hf]
      obtain ⟨l, _, h2, _, _, _⟩ := genFold_append uid y m ps pe lastDay ts
        { db with
            bills := db.bills ++ [genBill uid y m lastDay db.nextId t]
            nextId := db.nextId + 1 }
        (created ++ [genBill uid y m lastDay db.nextId t])
      refine ⟨genBill uid y m lastDay db.nextId t, ?_, rfl, rfl⟩
      rw [h2]
      exact List.mem_append_left _ (List.mem_append_right _ (List.mem_singleton.mpr rfl))
    · -- t is in the tail: the head step cannot add a bill masking t
      have hne : t0.id ≠ t.id := by
        have h1 := (List.nodup_cons.mp hnodup).1
        intro he
        refine h1 ?_
        show t0.id ∈ List.map (fun x => x.id) ts
        rw [he]
        exact List.mem_map_of_mem (fun x => x.id) hts
      have hnodup' := (List.nodup_cons.mp hnodup).2
      by_cases hday : t0.dueDay < 1 ∨ 31 < t0.dueDay
      · rw [genStep_invalid uid y m ps pe lastDay (db, created) t0 hday]
        exact ih db created t hts hnodup' hd1 hd31 hclean
      · cases hf : db.bills.find?
            (fun b => decide (generatedBillFor uid ps pe t0 b)) with
        | some b0 =>
          rw [genStep_existing uid y m ps pe lastDay (db, created) t0 b0 hday hf]
          exact ih db created t hts hnodup' hd1 hd31 hclean
        | none =>
          rw [genStep_create uid y m ps pe lastDay db created t0 hday hf]
          refine ih _ _ t hts hnodup' hd1 hd31 ?_
          intro b hb
          rcases List.mem_append.mp hb with hbdb | hbnew
          · exact hclean b hbdb
          · rw [List.mem_singleton.mp hbnew]
            intro hpred
            have hsome : some t0.id = some t.id := hpred.2.1
            exact hne (Option.some_injective _ hsome)

/-- Claim C6: for every active template with a due day in 1..31 (and no
generated bill for it in the target month yet), the generated bill is dated
on the template's due day clamped to the last real day of the month. -/
theorem generateBills_clamped_date (db : DB) (uid : Nat) (y : Int) (m : Nat)
    (t : BillTemplate) (ht : t ∈ db.billTemplates) (howner : t.userId = uid)
    (hactive : t.active = true) (hd1 : 1 ≤ t.dueDay) (hd31 : t.dueDay ≤ 31)
    (hnodup : (db.billTemplates.map (fun x => x.id)).Nodup)
    (hclean : ∀ b ∈ db.bills,
      ¬generatedBillFor uid (periodStart y m) (periodEnd y m) t b) :
    ∃ b ∈ (generateBillsForMonth db uid y m).2,
      b.billTemplateId = some t.id ∧
      b.dueDate = dateSec y m (min t.dueDay (daysInMonth y m)) 0 0 0 := by
  have htA : t ∈ activeTemplates db uid := by
    refine List.mem_filter.mpr ⟨ht, ?_⟩
    simp [howner, hactive]
  have hnodupA : ((activeTemplates db uid).map (fun x => x.id)).Nodup :=
    hnodup.sublist ((List.filter_sublist _).map _)
  exact genFold_creates uid y m (periodStart y m) (periodEnd y m)
    (daysInMonth y m) (activeTemplates db uid) db [] t htA hnodupA hd1 hd31 hclean

/-- Witness for C6: generating `2024-02` from a `dueDay = 31` template
produces a bill dated 2024-02-29 (2024 is a leap year, so February has 29
days). -/
theorem generateBills_clamped_date_witness :
    daysInMonth 2024 2 = 29 ∧
    ∃ b ∈ (generateBillsForMonth c6DB 1 2024 2).2,
      b.billTemplateId = some 20 ∧ b.dueDate = dateSec 2024 2 29 0 0 0 := by
  refine ⟨by decide, ?_⟩
  obtain ⟨b, hbmem, hbt, hbd⟩ :=
    generateBills_clamped_date c6DB 1 2024 2 c6Template
      (by simp [c6DB]) rfl rfl (by decide) (by decide)
      (by simp [c6DB]) (by intro b hb; simp [c6DB] at hb)
  exact ⟨b, hbmem, hbt, hbd.trans (by decide)⟩

/-- Conditionally appending to a list equals appending a conditional tail. -/
theorem cond_append (c : Prop) [Decidable c] (l a : List Advisory) :
    (if c then l ++ a else l) = l ++ (if c then a else []) := by
  split <;> simp

/-- A conditional concatenation splits into two conditionals. -/
theorem ite_append_distrib (c : Prop) [Decidable c] (r s : List Advisory) :
    (if c then r ++ s else ([] : List Advisory)) =
      (if c then r else []) ++ (if c then s else []) := by
  split <;> simp

set_option maxHeartbeats 1000000 in
/-- The sequential conditional pushes of the advice route, over its already
computed scalars, assemble to the concatenation of the six rule
contributions in source order.  The left-hand side is definitionally the
body of `financialAdvice`. -/
theorem advices_assembly (tI tE fE vE : ℚ) (cats : List (Category × ℚ))
    (ub : List Bill) :
    (let advices : List Advisory := []
     let advices := if tI ≤ 0 ∧ 0 < tE then advices ++ [noIncomeAdvisory] else advices
     let advices :=
       if 0 < tI then
         let fixedPct := fE / tI
         let variablePct := vE / tI
         let advices :=
           if 1 / 2 < fixedPct then advices ++ [highFixedAdvisory fixedPct] else advices
         if 3 / 10 < variablePct then advices ++ [highVariableAdvisory variablePct]
         else advices
       else advices
     let advices :=
       if tI - tE < 0 then advices ++ [negativeBalanceAdvisory |tI - tE|] else advices
     let advices :=
       match cats with
       | [] => advices
       | h :: t =>
         if 0 < tE then
           let top := topExpenseCategory h t
           let share := top.2 / tE
           if 3 / 10 < share then advices ++ [topCategoryAdvisory top.1.name share]
           else advices
         else advices
     if ub ≠ [] then advices ++ [upcomingBillsAdvisory (sumBillAmounts ub)]
     else advices) =
      ruleNoIncome tI tE ++ ruleHighFixed tI fE ++ ruleHighVariable tI vE ++
        ruleNegativeBalance (tI - tE) ++ ruleTopCategory tE cats ++
        ruleUpcoming ub := by
  cases cats with
  | nil =>
    simp only [ruleNoIncome, ruleHighFixed, ruleHighVariable,
      ruleNegativeBalance, ruleTopCategory, ruleUpcoming,
      cond_append, ite_append_distrib, List.append_assoc, List.nil_append]
    split_ifs <;> simp
  | cons h t =>
    simp only [ruleNoIncome, ruleHighFixed, ruleHighVariable,
      ruleNegativeBalance, ruleTopCategory, ruleUpcoming,
      cond_append, ite_append_distrib, List.append_assoc, List.nil_append]
    split_ifs <;> simp

/-- Claim C7: the six advice rules are evaluated in the fixed source order
no-income, high-fixed, high-variable, negative-balance, top-category,
upcoming-bills, each contributing zero or one advisory, so the output list
is exactly the concatenation of the six rule contributions in that order —
for every month, unconditionally; and whenever the month's balance is
negative the list contains the `negative-balance` alert carrying the
absolute shortfall. -/
theorem financialAdvice_rule_order (db : DB) (uid : Nat) (y : Int) (m : Nat)
    (now : Int) :
    financialAdvice db uid y m now =
      ruleNoIncome (totalIncome db uid (periodStart y m) (periodEnd y m))
          (totalExpense db uid (periodStart y m) (periodEnd y m)) ++
        ruleHighFixed (totalIncome db uid (periodStart y m) (periodEnd y m))
          (fixedExpenses db uid (periodStart y m) (periodEnd y m)) ++
        ruleHighVariable (totalIncome db uid (periodStart y m) (periodEnd y m))
          (variableExpenses db uid (periodStart y m) (periodEnd y m)) ++
        ruleNegativeBalance
          (totalIncome db uid (periodStart y m) (periodEnd y m) -
            totalExpense db uid (periodStart y m) (periodEnd y m)) ++
        ruleTopCategory (totalExpense db uid (periodStart y m) (periodEnd y m))
          (((relevantCategories db uid (periodStart y m) (periodEnd y m)).map
            (fun c => (c, categoryExpense db uid (periodStart y m)
              (periodEnd y m) c.id))).filter (fun x => 0 < x.2)) ++
        ruleUpcoming (upcomingBills db uid now) ∧
    (totalIncome db uid (periodStart y m) (periodEnd y m) -
        totalExpense db uid (periodStart y m) (periodEnd y m) < 0 →
      negativeBalanceAdvisory
          |totalIncome db uid (periodStart y m) (periodEnd y m) -
            totalExpense db uid (periodStart y m) (periodEnd y m)| ∈
        financialAdvice db uid y m now) := by
  have horder : financialAdvice db uid y m now =
      ruleNoIncome (totalIncome db uid (periodStart y m) (periodEnd y m))
          (totalExpense db uid (periodStart y m) (periodEnd y m)) ++
        ruleHighFixed (totalIncome db uid (periodStart y m) (periodEnd y m))
          (fixedExpenses db uid (periodStart y m) (periodEnd y m)) ++
        ruleHighVariable (totalIncome db uid (periodStart y m) (periodEnd y m))
          (variableExpenses db uid (periodStart y m) (periodEnd y m)) ++
        ruleNegativeBalance
          (totalIncome db uid (periodStart y m) (periodEnd y m) -
            totalExpense db uid (periodStart y m) (periodEnd y m)) ++
        ruleTopCategory (totalExpense db uid (periodStart y m) (periodEnd y m))
          (((relevantCategories db uid (periodStart y m) (periodEnd y m)).map
            (fun c => (c, categoryExpense db uid (periodStart y m)
              (periodEnd y m) c.id))).filter (fun x => 0 < x.2)) ++
        ruleUpcoming (upcomingBills db uid now) := by
    exact advices_assembly _ _ _ _ _ _
  refine ⟨horder, fun hneg => ?_⟩
  rw [horder]
  have h4 : ruleNegativeBalance
      (totalIncome db uid (periodStart y m) (periodEnd y m) -
        totalExpense db uid (periodStart y m) (periodEnd y m)) =
      [negativeBalanceAdvisory
        |totalIncome db uid (periodStart y m) (periodEnd y m) -
          totalExpense db uid (periodStart y m) (periodEnd y m)|] := by
    unfold ruleNegativeBalance
    rw [if_pos hneg]
  rw [h4]
  simp

/-- Witness for C7: with income 1000 and expense 1500 the balance is −500
and the advice list contains the `negative-balance` alert whose message
interpolates the 500 shortfall. -/
theorem financialAdvice_rule_order_witness :
    (totalIncome c7DB 1 (periodStart 2024 3) (periodEnd 2024 3) -
      totalExpense c7DB 1 (periodStart 2024 3) (periodEnd 2024 3) < 0) ∧
    negativeBalanceAdvisory 500 ∈ financialAdvice c7DB 1 2024 3 0 ∧
    (negativeBalanceAdvisory 500).id = "negative-balance" ∧
    (negativeBalanceAdvisory 500).severity = Severity.alert := by
  have hI : totalIncome c7DB 1 (periodStart 2024 3) (periodEnd 2024 3) = 1000 := by
    simp +decide [totalIncome, sumAmounts, c7DB]
  have hEx : totalExpense c7DB 1 (periodStart 2024 3) (periodEnd 2024 3) = 1500 := by
    simp +decide [totalExpense, sumAmounts, c7DB]
  have hneg : totalIncome c7DB 1 (periodStart 2024 3) (periodEnd 2024 3) -
      totalExpense c7DB 1 (periodStart 2024 3) (periodEnd 2024 3) < 0 := by
    rw [hI, hEx]
    norm_num
  have habs : |totalIncome c7DB 1 (periodStart 2024 3) (periodEnd 2024 3) -
      totalExpense c7DB 1 (periodStart 2024 3) (periodEnd 2024 3)| = 500 := by
    rw [hI, hEx]
    norm_num
  have hm := (financialAdvice_rule_order c7DB 1 2024 3 0).2 hneg
  rw [habs] at hm
  exact ⟨hneg, hm, rfl, rfl⟩

/-- Claim C8 fails on the code: the category lookup in the aggregator is
by id only, with no owner scoping, so owner 2's category changes owner 1's
overview.  The two stores agree on every row owned by 1 and differ only in
a category owned by 2, yet owner 1's `fixedExpenses` flips from 0 to 500
and the whole overview differs. -/
theorem monthOverview_cross_owner_dependence :
    c8DBB.transactions = c8DBA.transactions ∧
    c8DBB.bills = c8DBA.bills ∧
    c8DBB.billTemplates = c8DBA.billTemplates ∧
    c8DBA.categories = [] ∧
    c8DBB.categories = [c8CatB] ∧
    c8CatB.userId = 2 ∧
    (monthOverview c8DBA 1 2024 3).totals.fixedExpenses = 0 ∧
    (monthOverview c8DBB 1 2024 3).totals.fixedExpenses = 500 ∧
    monthOverview c8DBA 1 2024 3 ≠ monthOverview c8DBB 1 2024 3 := by
  have hA : (monthOverview c8DBA 1 2024 3).totals.fixedExpenses = 0 := by
    simp +decide [monthOverview, fixedExpenses, sumAmounts, classKind,
      findCategory, c8DBA]
  have hB : (monthOverview c8DBB 1 2024 3).totals.fixedExpenses = 500 := by
    simp +decide [monthOverview, fixedExpenses, sumAmounts, classKind,
      findCategory, c8DBB, c8DBA]
  refine ⟨rfl, rfl, rfl, rfl, rfl, rfl, hA, hB, ?_⟩
  intro h
  have := congrArg (fun o => o.totals.fixedExpenses) h
  simp only at this
  rw [hA, hB] at this
  norm_num at this

/-- Claim C4 fails on the code as an all-operations invariant: paying the
bill establishes the backing transaction, but the transaction DELETE route
happily removes it, leaving `paid = true` with a dangling
`paidTransactionId`. -/
theorem billInvariant_counterexample :
    billInvariant c1DB = true ∧
    payBill c1DB 1 10 50 = Except.ok (c4DB1, c4BillPaid) ∧
    billInvariant c4DB1 = true ∧
    deleteTransaction c4DB1 1 11 = Except.ok c4DB2 ∧
    billInvariant c4DB2 = false := by
  refine ⟨by decide, by decide, by decide, by decide, by decide⟩

/-- Claim C4 amended: the pay operation itself establishes and preserves
the backing invariant.  If every paid bill is backed before the call, every
paid bill is backed after it — the newly paid bill by the freshly created
expense transaction, all others by their previous backing transactions
(bill ids are assumed pairwise distinct, as the store's primary key
guarantees). -/
theorem payBill_preserves_invariant (db : DB) (uid billId : Nat) (now : Int)
    (db1 : DB) (b1 : Bill)
    (hnodup : (db.bills.map (fun b => b.id)).Nodup)
    (hinv : billInvariant db = true)
    (hok : payBill db uid billId now = Except.ok (db1, b1)) :
    billInvariant db1 = true := by
  unfold payBill at hok
  cases hfind : db.bills.find? (fun b => b.id == billId && b.userId == uid) with
  | none => rw [hfind] at hok; exact absurd hok (by simp)
  | some existing =>
    simp only [hfind] at hok
    have hmem : existing ∈ db.bills := List.mem_of_find?_eq_some hfind
    by_cases hc : (existing.paid && existing.paidTransactionId.isSome) = true
    · rw [if_pos hc] at hok
      injection hok with hok
      injection hok with hdb _
      rw [← hdb]
      exact hinv
    · rw [if_neg hc, if_neg hc] at hok
      injection hok with hok
      injection hok with hdb _
      subst hdb
      simp only [billInvariant, List.all_eq_true] at hinv ⊢
      intro y hy
      simp only [List.mem_map] at hy
      obtain ⟨x, hxmem, hxy⟩ := hy
      by_cases hxid : (x.id == existing.id) = true
      · -- x is the paid bill itself: backed by the new transaction
        have hxe : x = existing :=
          List.inj_on_of_nodup_map hnodup hxmem hmem
            (by simpa using beq_iff_eq.mp hxid)
        subst hxe
        rw [if_pos hxid] at hxy
        subst hxy
        simp only [paidBacked, markPaid, txBacksBill]
        simp only [Bool.not_true, Bool.false_or]
        apply List.any_eq_true.mpr
        refine ⟨_, List.mem_append_right _ (List.mem_singleton.mpr rfl), ?_⟩
        simp
      · -- x is untouched: still backed by its old transaction
        rw [if_neg hxid] at hxy
        subst hxy
        have hx := hinv x hxmem
        simp only [paidBacked] at hx ⊢
        cases hpaid : x.paid with
        | false => simp [hpaid]
        | true =>
          rw [hpaid] at hx
          simp only [Bool.not_true, Bool.false_or] at hx ⊢
          cases htid : x.paidTransactionId with
          | none => rw [htid] at hx; exact absurd hx (by simp)
          | some tid =>
            rw [htid] at hx
            simp only [txBacksBill, List.any_eq_true] at hx ⊢
            obtain ⟨t, htmem, htp⟩ := hx
            exact ⟨t, List.mem_append_left _ htmem, htp⟩

/-- Witness for the amended C4: the concrete store of the counterexample,
before the delete. -/
theorem payBill_preserves_invariant_witness :
    (c1DB.bills.map (fun b => b.id)).Nodup ∧
    billInvariant c1DB = true ∧
    payBill c1DB 1 10 50 = Except.ok (c4DB1, c4BillPaid) ∧
    billInvariant c4DB1 = true :=
  ⟨by decide, by decide, by decide,
    payBill_preserves_invariant c1DB 1 10 50 c4DB1 c4BillPaid
      (by decide) (by decide) (by decide)⟩

/-- `bitLenAux` is bounded by any exponent dominating its argument. -/
theorem bitLenAux_le (fuel : Nat) : ∀ (n k : ℕ), n < 2 ^ k →
    bitLenAux fuel n ≤ k := by
  induction fuel with
  | zero => intro n k _; simp [bitLenAux]
  | succ fuel ih =>
    intro n k h
    unfold bitLenAux
    split
    · omega
    · cases k with
      | zero =>
        simp only [pow_zero] at h
        omega
      | succ j =>
        have hd : n / 2 < 2 ^ j := by
          have : 2 ^ (j + 1) = 2 * 2 ^ j := by ring
          omega
        have := ih (n / 2) j hd
        omega

/-- `bitLen n ≤ k` whenever `n < 2 ^ k`. -/
theorem bitLen_le (n k : ℕ) (h : n < 2 ^ k) : bitLen n ≤ k :=
  bitLenAux_le n n k h

/-- A positive number has at least one bit. -/
theorem bitLen_pos (n : ℕ) (h : 1 ≤ n) : 1 ≤ bitLen n := by
  unfold bitLen
  cases n with
  | zero => omega
  | succ m =>
    unfold bitLenAux
    simp

/-- Exponent of a positive integer: one less than its bit length. -/
theorem floorLog2Pos_natCast (n : ℕ) (h : 1 ≤ n) :
    floorLog2Pos (n : ℚ) = (bitLen n : ℤ) - 1 := by
  unfold floorLog2Pos
  rw [if_pos (by exact_mod_cast h)]
  norm_num

/-- Binary64 represents every natural number below `2 ^ 53` exactly. -/
theorem float64Round_natCast (n : ℕ) (hn : n < 2 ^ 53) :
    float64Round (n : ℚ) = n := by
  rcases Nat.eq_zero_or_pos n with h0 | hpos
  · subst h0
    simp [float64Round]
  · have hgt : (0 : ℚ) < n := by exact_mod_cast hpos
    unfold float64Round float64RoundPos
    rw [if_neg (ne_of_gt hgt), if_pos hgt, floorLog2Pos_natCast n hpos]
    have hbl : bitLen n ≤ 53 := bitLen_le n 53 hn
    have hbl1 : 1 ≤ bitLen n := bitLen_pos n hpos
    have hkk : (52 : ℤ) - ((bitLen n : ℤ) - 1) = ((53 - bitLen n : ℕ) : ℤ) := by
      omega
    rw [hkk, zpow_natCast]
    have hsc : (n : ℚ) * 2 ^ (53 - bitLen n) =
        ((n * 2 ^ (53 - bitLen n) : ℕ) : ℚ) := by
      push_cast
      ring
    rw [hsc]
    have hint : roundTiesToEven ((n * 2 ^ (53 - bitLen n) : ℕ) : ℚ) =
        ((n * 2 ^ (53 - bitLen n) : ℕ) : ℤ) := by
      have := roundTiesToEven_intCast ((n * 2 ^ (53 - bitLen n) : ℕ) : ℤ)
      rw [← this]
      norm_num
    rw [hint]
    have hexp : (bitLen n : ℤ) - 1 - 52 = -((53 - bitLen n : ℕ) : ℤ) := by
      omega
    rw [hexp, zpow_neg, zpow_natCast]
    push_cast
    rw [mul_assoc, mul_inv_cancel₀ (by positivity), mul_one]

/-- The bill-rollup reduce is exact on whole-number amounts as long as the
running sum stays below `2 ^ 53`. -/
theorem foldl_jsAdd_nat : ∀ (ns : List ℕ) (s : ℕ),
    s + ns.sum < 2 ^ 53 →
    (ns.map (fun n : ℕ => (n : ℚ))).foldl (fun acc a => jsAdd acc (float64Round a))
      (s : ℚ) = ((s + ns.sum : ℕ) : ℚ) := by
  intro ns
  induction ns with
  | nil =>
    intro s _
    simp only [List.map_nil, List.foldl_nil, List.sum_nil, Nat.add_zero]
  | cons n ns ih =>
    intro s hb
    simp only [List.map_cons, List.foldl_cons]
    have hn : n < 2 ^ 53 := by
      have := ns.sum.zero_le
      simp only [List.sum_cons] at hb
      omega
    have hsn : s + n < 2 ^ 53 := by
      simp only [List.sum_cons] at hb
      omega
    have h1 : float64Round (n : ℚ) = n := float64Round_natCast n hn
    have h2 : jsAdd (s : ℚ) (n : ℚ) = ((s + n : ℕ) : ℚ) := by
      unfold jsAdd
      have : (s : ℚ) + n = ((s + n : ℕ) : ℚ) := by push_cast; ring
      rw [this, float64Round_natCast (s + n) hsn]
    rw [h1, h2]
    have := ih (s + n) (by simp only [List.sum_cons] at hb; omega)
    rw [this]
    congr 1
    simp only [List.sum_cons]
    omega

/-- Claim C9 amended: the rollup sums are IEEE-754 binary64, not exact
decimal — they are guaranteed exact only when every amount (and the running
sum) is binary64-representable, e.g. whole-number amounts totalling below
`2 ^ 53`. -/
theorem totalDueFloat64_exact_on_whole_amounts (ns : List ℕ)
    (hb : ns.sum < 2 ^ 53) :
    totalDueFloat64 (ns.map (fun n : ℕ => (n : ℚ))) = ((ns.sum : ℕ) : ℚ) := by
  unfold totalDueFloat64
  have h := foldl_jsAdd_nat ns 0 (by omega)
  simp only [Nat.cast_zero, Nat.zero_add] at h
  exact h

/-- Claim C9 fails on the code: pulling the store's decimals through
`Number(...)` and summing with JavaScript `+` is binary64 arithmetic, and
two bills of 0.1 and 0.2 produce the rollup 0.30000000000000004
(`1351079888211149 / 2 ^ 52`), not the exact decimal 0.3 — the conversion
already loses 0.1 itself. -/
theorem totalDueFloat64_drift :
    float64Round (1 / 10 : ℚ) ≠ (1 / 10 : ℚ) ∧
    totalDueFloat64 [1 / 10, 2 / 10] ≠ (1 / 10 : ℚ) + 2 / 10 ∧
    totalDueFloat64 [1 / 10, 2 / 10] = 1351079888211149 / 2 ^ 52 := by
  have hfold : totalDueFloat64 [1 / 10, 2 / 10] = 1351079888211149 / 2 ^ 52 := by
    unfold totalDueFloat64
    simp only [List.foldl_cons, List.foldl_nil]
    rw [float64Round_tenth, float64Round_fifth]
    unfold jsAdd
    rw [zero_add, float64Round_tenth_fixpoint]
    rw [show (3602879701896397 / 2 ^ 55 : ℚ) + 3602879701896397 / 2 ^ 54 =
      10808639105689191 / 2 ^ 55 by norm_num]
    exact float64Round_drift_sum
  refine ⟨?_, ?_, hfold⟩
  · rw [float64Round_tenth]
    norm_num
  · rw [hfold]
    norm_num

/-- Witness for the amended C9 on whole amounts 100 and 250. -/
theorem totalDueFloat64_exact_on_whole_amounts_witness :
    ([100, 250] : List ℕ).sum < 2 ^ 53 ∧
    totalDueFloat64 (([100, 250] : List ℕ).map (fun n : ℕ => (n : ℚ))) =
      ((([100, 250] : List ℕ).sum : ℕ) : ℚ) :=
  ⟨by decide, totalDueFloat64_exact_on_whole_amounts [100, 250] (by decide)⟩

end FinApp
